import Mathlib

/-!
# petcode-back: token issuance, verification and the auth gate

A shallow embedding of `jwt.go`, `report.go` and the handlers of `pet.go` that
the properties below are about.

Conventions of the embedding.

* Go strings are Lean strings; `[]byte` is a list of byte values.
* A Go function that can end abnormally returns a `Run`: `done` for a normal
  return, `panic` for a run-time panic (index out of range, nil dereference,
  failed type assertion) and `fatal` for `log.Fatal`, which exits the process.
  A Go result pair `(T, error)` is an `Except String T`, the string being
  `err.Error()`.
* A `float64` that holds a finite value is the rational number it denotes.
* Code that is not part of the repository is a parameter: the hash functions,
  the base64url segment codec and the JSON codec are the fields of `Lib`; the
  facts about them that a proof needs are the fields of `Lib.Lawful`.  The
  control flow of `jwt.Parse`, of `crypto/hmac` and of `strings.Split` is
  written out, following `github.com/golang-jwt/jwt` v3.2.2 and the Go
  standard library.
-/

namespace Petcode

/-! ## Go strings and `strings.Split` -/

/-- A byte slice. -/
abbrev Bytes := List Nat

/-- The conversion `[]byte(s)`: the UTF-8 bytes of `s`. -/
def bytesOf (s : String) : Bytes :=
  s.data.flatMap (fun c => (String.utf8EncodeChar c).map UInt8.toNat)

/-- Worker of `strings.Split` for a non-empty separator, on character lists.
`skip` counts the characters of a matched separator that are still to be
dropped, `acc` is the current part, reversed. -/
def splitGo (sep : List Char) : Nat → List Char → List Char → List (List Char)
  | _, acc, [] => [acc.reverse]
  | skip + 1, acc, _ :: cs => splitGo sep skip acc cs
  | 0, acc, c :: cs =>
      if sep.isPrefixOf (c :: cs) then acc.reverse :: splitGo sep (sep.length - 1) [] cs
      else splitGo sep 0 (c :: acc) cs

/-- The function `strings.Split(s, sep)`: the parts of `s` between the
occurrences of `sep`, found left to right; with an empty `sep` the string is
split after each character. -/
def strings_Split (s sep : String) : List String :=
  if sep = "" then s.data.map (fun c => String.mk [c])
  else (splitGo sep.data 0 [] s.data).map String.mk

/-- The test `strings.HasPrefix(strings.ToLower(s), "bearer ")` of the parser,
with the case folding of the ASCII letters; only the text of one error depends
on it. -/
def hasBearerPrefix (s : String) : Bool :=
  ("bearer ".data).isPrefixOf (s.data.map Char.toLower)

/-! ## Outcomes of Go code -/

/-- How a call ends: a normal return, a run-time panic, or `log.Fatal`. -/
inductive Run (α : Type) where
  | done (a : α)
  | panic
  | fatal
  deriving DecidableEq, Repr

/-! ## JSON values and claims -/

/-- A value stored in a `jwt.MapClaims` before it is marshalled. -/
inductive GoVal where
  | bool (b : Bool)
  | uint (n : Nat)
  | int64 (i : Int)
  | str (s : String)
  deriving DecidableEq, Repr

/-- A value as `encoding/json` decodes it into an `interface{}`: `nil`, `bool`,
`float64`, `string`, or a slice or map (`composite`), which no code here looks
into. -/
inductive JVal where
  | null
  | bool (b : Bool)
  | num (x : ℚ)
  | str (s : String)
  | composite
  deriving DecidableEq, Repr

/-- A Go `map[string]interface{}`, as an association list. -/
abbrev JMap := List (String × JVal)

/-- The index expression `m[k]`: the value under `k`, `nil` when the key is
absent. -/
def JMap.at (m : JMap) (k : String) : JVal :=
  (m.lookup k).getD JVal.null

/-- The assignment `m[k] = v` on a map of values to marshal. -/
def setKey (m : List (String × GoVal)) (k : String) (v : GoVal) : List (String × GoVal) :=
  if (m.lookup k).isSome then m.map (fun e => if e.1 = k then (k, v) else e)
  else m ++ [(k, v)]

/-- The number of low bits a natural number has beyond 53 significant bits
(`fuel` bounds the count). -/
def excessBits : Nat → Nat → Nat
  | 0, _ => 0
  | fuel + 1, n => if n < 2 ^ 53 then 0 else excessBits fuel (n / 2) + 1

/-- The nearest `float64` to a natural number (round to nearest, ties to
even, 53 significant bits), as `strconv.ParseFloat` computes it from the
decimal digits; valid below `2^1023`, far above every 64-bit integer. -/
def toFloat64 (n : Nat) : Nat :=
  let e := excessBits 1024 n
  if e = 0 then n
  else
    let q := n / 2 ^ e
    let r := n % 2 ^ e
    let half := 2 ^ (e - 1)
    if r > half ∨ (r = half ∧ q % 2 = 1) then (q + 1) * 2 ^ e else q * 2 ^ e

/-- What a marshalled value is after `json.Marshal` and a decode into
`interface{}`: numbers come back as `float64`. -/
def wire : GoVal → JVal
  | GoVal.bool b => JVal.bool b
  | GoVal.uint n => JVal.num (toFloat64 n)
  | GoVal.int64 i => JVal.num (if i < 0 then -((toFloat64 i.natAbs : Nat) : ℚ) else (toFloat64 i.natAbs : Nat))
  | GoVal.str s => JVal.str s

/-- The conversion `int64(f)` of a `float64`: truncation toward zero; outside
the `int64` range the result of the amd64 conversion instruction. -/
def int64OfFloat (x : ℚ) : Int :=
  let t : Int := if 0 ≤ x then ⌊x⌋ else ⌈x⌉
  if -(2 : Int) ^ 63 ≤ t ∧ t < (2 : Int) ^ 63 then t else -(2 : Int) ^ 63

/-! ## The data model (`user.go`, `pet.go`, `report.go`, `main.go`) -/

/-- The struct `User`. -/
structure User where
  ID : Nat
  Email : String
  Password : String
  Name : String
  Firstname : String
  deriving DecidableEq, Repr

/-- The struct `Pet`; `Deleted` says that `DeletedAt` of the embedded
`gorm.Model` is set (the row is soft-deleted). -/
structure Pet where
  ID : Nat
  Name : String
  Breed : String
  Sexe : String
  Birthdate : String
  Slug : String
  UserID : Nat
  QRCodeID : Nat
  Deleted : Bool
  deriving DecidableEq, Repr

/-- The struct `Report`. -/
structure Report where
  ID : Nat
  PhoneNumber : String
  City : String
  Where : String
  HasPet : Bool
  Additional : String
  PetID : Nat
  deriving DecidableEq, Repr

/-- The struct `FieldError`. -/
structure FieldError where
  Field : String
  Error : String
  deriving DecidableEq, Repr

/-- The type `FieldErrors`. -/
abbrev FieldErrors := List FieldError

/-- The values the handlers store in `HTTPResponse.Data`. -/
inductive Data where
  | none
  | text (s : String)
  | pet (p : Pet)
  | report (r : Report)
  deriving DecidableEq, Repr

/-- The values the handlers store in `HTTPResponse.Error`: nothing, the text
of an error, or a list of field errors. -/
inductive ErrorData where
  | none
  | text (s : String)
  | fields (fe : FieldErrors)
  deriving DecidableEq, Repr

/-- The struct `HTTPResponse`. -/
structure HTTPResponse where
  Data : Data
  Error : ErrorData
  Status : Nat
  deriving DecidableEq, Repr

/-- The part of an incoming request the handlers read: the `Authorization`
header (`none` when the request has none), the `slug` route variable, the
body, and the `requestID` value of the request context. -/
structure Request where
  Authorization : Option String
  slug : String
  body : String
  requestID : Option String
  deriving DecidableEq, Repr

/-- The call `r.Header.Get("Authorization")`: the empty string when the header
is absent. -/
def Request.headerGet (r : Request) : String :=
  r.Authorization.getD ""

/-! ## The library interface -/

/-- The hash functions the HMAC signing methods use. -/
inductive Hash where
  | SHA256
  | SHA384
  | SHA512
  deriving DecidableEq, Repr

/-- The block size of the hash, in bytes. -/
def Hash.blockSize : Hash → Nat
  | Hash.SHA256 => 64
  | Hash.SHA384 => 128
  | Hash.SHA512 => 128

/-- The functions of the imported libraries whose code is not modelled. -/
structure Lib where
  /-- The digest of a byte sequence under a hash function. -/
  sum : Hash → Bytes → Bytes
  /-- The function `jwt.EncodeSegment`: unpadded base64url. -/
  EncodeSegment : Bytes → String
  /-- The function `jwt.DecodeSegment`. -/
  DecodeSegment : String → Except String Bytes
  /-- The function `json.Marshal` on a `map[string]interface{}`. -/
  Marshal : List (String × GoVal) → Bytes
  /-- The function `json.Unmarshal` into a `map[string]interface{}`. -/
  Unmarshal : Bytes → Except String JMap
  /-- A `json.Decoder` reading one value into a `jwt.MapClaims`. -/
  Decode : Bytes → Except String JMap
  /-- A `json.Decoder` reading a request body into a `Report`. -/
  decodeReport : String → Except String Report
  /-- A `json.Decoder` reading a request body into a `Pet`. -/
  decodePet : String → Except String Pet
  /-- Whether `uuid.Parse` accepts the string. -/
  uuidParse : String → Bool

/-- What the proofs about issued tokens use of the libraries: decoding undoes
encoding, and an encoded segment has neither a dot nor a blank in it. -/
structure Lib.Lawful (lib : Lib) : Prop where
  segment : ∀ b : Bytes, lib.DecodeSegment (lib.EncodeSegment b) = Except.ok b
  alphabet : ∀ (b : Bytes) (c : Char), c ∈ (lib.EncodeSegment b).data → c ≠ '.' ∧ c ≠ ' '
  unmarshal : ∀ m : List (String × GoVal), ∃ j : JMap,
    lib.Unmarshal (lib.Marshal m) = Except.ok j ∧ ∀ k : String, j.lookup k = (m.lookup k).map wire
  decode : ∀ m : List (String × GoVal), ∃ j : JMap,
    lib.Decode (lib.Marshal m) = Except.ok j ∧ ∀ k : String, j.lookup k = (m.lookup k).map wire

/-! ## `crypto/hmac` -/

/-- The key block of `hmac.New`: a key longer than the block is hashed first,
then the key is copied into a zeroed block. -/
def hmacBlock (lib : Lib) (h : Hash) (key : Bytes) : Bytes :=
  let k := if key.length > h.blockSize then lib.sum h key else key
  (k ++ List.replicate (h.blockSize - k.length) 0).take h.blockSize

/-- The MAC of `msg` under `key`: `hmac.New(h, key)`, `Write(msg)`, `Sum(nil)`. -/
def hmacSum (lib : Lib) (h : Hash) (key msg : Bytes) : Bytes :=
  let block := hmacBlock lib h key
  let ipad := block.map (fun b => b ^^^ 0x36)
  let opad := block.map (fun b => b ^^^ 0x5c)
  lib.sum h (opad ++ lib.sum h (ipad ++ msg))

/-! ## `github.com/golang-jwt/jwt` -/

/-- A signing method: one of the HMAC family (`*jwt.SigningMethodHMAC`), or
another registered method. -/
inductive SigningMethod where
  | HMAC (name : String) (hash : Hash)
  | other (name : String)
  deriving DecidableEq, Repr

/-- The method `Alg()`. -/
def SigningMethod.Alg : SigningMethod → String
  | SigningMethod.HMAC name _ => name
  | SigningMethod.other name => name

/-- The value `jwt.SigningMethodHS256`. -/
def SigningMethodHS256 : SigningMethod := SigningMethod.HMAC "HS256" Hash.SHA256

/-- The registered HMAC methods. -/
def hmacMethods : List (String × Hash) :=
  [("HS256", Hash.SHA256), ("HS384", Hash.SHA384), ("HS512", Hash.SHA512)]

/-- The names of the other registered methods. -/
def otherMethods : List String :=
  ["RS256", "RS384", "RS512", "PS256", "PS384", "PS512", "ES256", "ES384", "ES512", "EdDSA", "none"]

/-- The function `jwt.GetSigningMethod`: the method registered under a name. -/
def GetSigningMethod (alg : String) : Option SigningMethod :=
  match hmacMethods.lookup alg with
  | some h => some (SigningMethod.HMAC alg h)
  | none => if alg ∈ otherMethods then some (SigningMethod.other alg) else none

/-- The dynamic type of `Token.Claims`: a `jwt.MapClaims`, or another
implementation of the `Claims` interface. -/
inductive Claims where
  | MapClaims (m : JMap)
  | Other
  deriving DecidableEq, Repr

/-- The struct `jwt.Token`. -/
structure Token where
  Raw : String
  Method : SigningMethod
  Header : JMap
  Claims : Claims
  Signature : String
  Valid : Bool
  deriving DecidableEq, Repr

/-- The helper `verifyExp`. -/
def verifyExp (exp now : Int) (required : Bool) : Bool :=
  if exp = 0 then !required else decide (now ≤ exp)

/-- The helper `verifyIat`. -/
def verifyIat (iat now : Int) (required : Bool) : Bool :=
  if iat = 0 then !required else decide (iat ≤ now)

/-- The helper `verifyNbf`. -/
def verifyNbf (nbf now : Int) (required : Bool) : Bool :=
  if nbf = 0 then !required else decide (nbf ≤ now)

/-- The shape shared by `MapClaims.VerifyExpiresAt`, `VerifyIssuedAt` and
`VerifyNotBefore`: an absent key passes unless required, a `float64` is
converted to `int64` and compared, anything else fails. -/
def verifyTime (check : Int → Int → Bool → Bool) (m : JMap) (key : String) (cmp : Int)
    (req : Bool) : Bool :=
  match m.lookup key with
  | none => !req
  | some (JVal.num x) => check (int64OfFloat x) cmp req
  | some _ => false

/-- The method `MapClaims.Valid`, at time `now`: `none` when the claims are
valid, else the text of the error. -/
def MapClaims_Valid (m : JMap) (now : Int) : Option String :=
  let e1 : Option String :=
    if verifyTime verifyExp m "exp" now false then none else some "Token is expired"
  let e2 : Option String :=
    if verifyTime verifyIat m "iat" now false then e1 else some "Token used before issued"
  if verifyTime verifyNbf m "nbf" now false then e2 else some "Token is not valid yet"

/-- The method `Valid` of the `Claims` interface. -/
def Claims.Valid : Claims → Int → Option String
  | Claims.MapClaims m, now => MapClaims_Valid m now
  | Claims.Other, _ => none

/-- The method `Sign` with a `[]byte` key. -/
def SigningMethod.Sign (lib : Lib) : SigningMethod → String → Bytes → Except String String
  | SigningMethod.HMAC _ h, signingString, key =>
      Except.ok (lib.EncodeSegment (hmacSum lib h key (bytesOf signingString)))
  | SigningMethod.other _, _, _ => Except.error "key is of invalid type"

/-- The method `Verify` with a `[]byte` key: `none` when the signature is
good, else the text of the error. -/
def SigningMethod.Verify (lib : Lib) : SigningMethod → String → String → Bytes → Option String
  | SigningMethod.HMAC _ h, signingString, signature, key =>
      match lib.DecodeSegment signature with
      | Except.error e => some e
      | Except.ok sig =>
          if sig = hmacSum lib h key (bytesOf signingString) then none
          else some "signature is invalid"
  | SigningMethod.other _, _, _, _ => some "key is of invalid type"

/-- The function `jwt.New`: a token with the header of the method and an empty
claim map. -/
def jwt_New (method : SigningMethod) : List (String × GoVal) × SigningMethod :=
  ([("typ", GoVal.str "JWT"), ("alg", GoVal.str method.Alg)], method)

/-- The method `Token.SigningString`, on the header and claims to marshal. -/
def SigningString (lib : Lib) (header claims : List (String × GoVal)) : String :=
  lib.EncodeSegment (lib.Marshal header) ++ "." ++ lib.EncodeSegment (lib.Marshal claims)

/-- The method `Token.SignedString` with a `[]byte` key. -/
def SignedString (lib : Lib) (method : SigningMethod) (header claims : List (String × GoVal))
    (key : Bytes) : Except String String :=
  let sstr := SigningString lib header claims
  match method.Sign lib sstr key with
  | Except.error e => Except.error e
  | Except.ok sig => Except.ok (sstr ++ "." ++ sig)

/-- The method `Parser.ParseUnverified` with a `MapClaims` target: the decoded
token and its three segments. -/
def ParseUnverified (lib : Lib) (tokenString : String) :
    Except String (Token × String × String × String) :=
  match strings_Split tokenString "." with
  | [p0, p1, p2] =>
      match lib.DecodeSegment p0 with
      | Except.error e =>
          if hasBearerPrefix tokenString then
            Except.error "tokenstring should not contain 'bearer '"
          else Except.error e
      | Except.ok headerBytes =>
          match lib.Unmarshal headerBytes with
          | Except.error e => Except.error e
          | Except.ok header =>
              match lib.DecodeSegment p1 with
              | Except.error e => Except.error e
              | Except.ok claimBytes =>
                  match lib.Decode claimBytes with
                  | Except.error e => Except.error e
                  | Except.ok claims =>
                      match header.at "alg" with
                      | JVal.str method =>
                          match GetSigningMethod method with
                          | none => Except.error "signing method (alg) is unavailable."
                          | some m =>
                              Except.ok
                                (⟨tokenString, m, header, Claims.MapClaims claims, "", false⟩,
                                  p0, p1, p2)
                      | _ => Except.error "signing method (alg) is unspecified."
  | _ => Except.error "token contains an invalid number of segments"

/-- The function `jwt.Parse` at time `now`: parse, ask `keyFunc` for the key,
validate the claims, verify the signature.  The result is the pair the
library returns, reduced to what its caller reads: the token when the error is
nil, else the error text. -/
def jwt_Parse (lib : Lib) (now : Int) (tokenString : String)
    (keyFunc : Token → Run (Except String Bytes)) : Run (Except String Token) :=
  match ParseUnverified lib tokenString with
  | Except.error e => Run.done (Except.error e)
  | Except.ok (token, p0, p1, p2) =>
      match keyFunc token with
      | Run.panic => Run.panic
      | Run.fatal => Run.fatal
      | Run.done (Except.error e) => Run.done (Except.error e)
      | Run.done (Except.ok key) =>
          match token.Method.Verify lib (p0 ++ "." ++ p1) p2 key, token.Claims.Valid now with
          | some e, _ => Run.done (Except.error e)
          | none, some e => Run.done (Except.error e)
          | none, none => Run.done (Except.ok { token with Signature := p2, Valid := true })

/-! ## `jwt.go` -/

/-- The function `getJWTSecret`; `env` is the value of `JWT_SECRET_KEY`,
`none` when the variable is unset. -/
def getJWTSecret (env : Option String) : Run Bytes :=
  let jwtSecret := env.getD ""
  if jwtSecret ≠ "" then Run.done (bytesOf jwtSecret) else Run.fatal

/-- The claims `generateJWT` stores, issued at Unix time `now`. -/
def sessionClaims (user : User) (now : Int) : List (String × GoVal) :=
  setKey (setKey (setKey (setKey [] "authorized" (GoVal.bool true)) "user_id" (GoVal.uint user.ID))
    "email" (GoVal.str user.Email)) "exp" (GoVal.int64 (now + 60 * 60))

/-- The claims `generateReportJWT` stores, issued at Unix time `now`. -/
def reportClaims (pet : Pet) (now : Int) : List (String × GoVal) :=
  setKey (setKey (setKey [] "authorized" (GoVal.bool true)) "pet_id" (GoVal.uint pet.ID))
    "exp" (GoVal.int64 (now + 60 * 60))

/-- The function `generateJWT`, called at Unix time `now`. -/
def generateJWT (lib : Lib) (env : Option String) (now : Int) (user : User) :
    Run (Except String String) :=
  let token := jwt_New SigningMethodHS256
  let claims := sessionClaims user now
  match getJWTSecret env with
  | Run.done key => Run.done (SignedString lib token.2 token.1 claims key)
  | Run.panic => Run.panic
  | Run.fatal => Run.fatal

/-- The function `generateReportJWT`, called at Unix time `now`. -/
def generateReportJWT (lib : Lib) (env : Option String) (now : Int) (pet : Pet) :
    Run (Except String String) :=
  let token := jwt_New SigningMethodHS256
  let claims := reportClaims pet now
  match getJWTSecret env with
  | Run.done key => Run.done (SignedString lib token.2 token.1 claims key)
  | Run.panic => Run.panic
  | Run.fatal => Run.fatal

/-- The key function `extractTokenFromJWT` hands to `jwt.Parse`. -/
def keyFunc (env : Option String) (token : Token) : Run (Except String Bytes) :=
  match token.Method with
  | SigningMethod.HMAC _ _ =>
      match getJWTSecret env with
      | Run.done key => Run.done (Except.ok key)
      | Run.panic => Run.panic
      | Run.fatal => Run.fatal
  | SigningMethod.other _ => Run.done (Except.error "there was an error in parsing")

/-- The function `extractTokenFromJWT`, called at Unix time `now`. -/
def extractTokenFromJWT (lib : Lib) (env : Option String) (now : Int) (token : String) :
    Run (Except String Token) :=
  match jwt_Parse lib now token (keyFunc env) with
  | Run.done (Except.error e) => Run.done (Except.error e)
  | Run.done (Except.ok parse) => Run.done (Except.ok parse)
  | Run.panic => Run.panic
  | Run.fatal => Run.fatal

/-- The anonymous struct the claim readers return. -/
structure Identity where
  id : ℚ
  deriving DecidableEq, Repr

/-- The function `readJWTClaims`. -/
def readJWTClaims (token : Token) : Run (Except String Identity) :=
  match token.Claims with
  | Claims.MapClaims claims =>
      if token.Valid then
        if claims.at "user_id" = JVal.null ∨ claims.at "user_id" = JVal.str "" then
          Run.done (Except.error "Missing required claims")
        else if claims.at "email" = JVal.null ∨ claims.at "email" = JVal.str "" then
          Run.done (Except.error "Missing required claims")
        else
          match claims.at "user_id" with
          | JVal.num x => Run.done (Except.ok ⟨x⟩)
          | _ => Run.panic
      else Run.done (Except.ok ⟨0⟩)
  | Claims.Other => Run.done (Except.ok ⟨0⟩)

/-- The function `readReportJWTClaims`. -/
def readReportJWTClaims (token : Token) : Run (Except String Identity) :=
  match token.Claims with
  | Claims.MapClaims claims =>
      if token.Valid then
        if claims.at "pet_id" = JVal.null ∨ claims.at "pet_id" = JVal.str "" then
          Run.done (Except.error "Missing required claims")
        else
          match claims.at "pet_id" with
          | JVal.num x => Run.done (Except.ok ⟨x⟩)
          | _ => Run.panic
      else Run.done (Except.ok ⟨0⟩)
  | Claims.Other => Run.done (Except.ok ⟨0⟩)

/-- What the gate does with a request: it calls the wrapped handler (`a` is
what that call does), or writes a response itself, or panics, or the process
exits in `log.Fatal`. -/
inductive Served (α : Type) where
  | forwarded (a : α)
  | replied (resp : HTTPResponse)
  | panicked
  | exited

/-- The response of the gate and of `CreateReport` to an empty bearer token. -/
def missingTokenResponse : HTTPResponse :=
  ⟨Data.none, ErrorData.fields [⟨"jwt", "Jeton d'authentification manquant"⟩], 401⟩

/-- The response of the gate and of `CreateReport` to a token that does not
decode. -/
def decodeErrorResponse (e : String) : HTTPResponse :=
  ⟨Data.none, ErrorData.fields [⟨"jwt", e⟩], 400⟩

/-- The generic response of the gate and of `CreateReport` to a token they do
not accept. -/
def invalidTokenResponse : HTTPResponse :=
  ⟨Data.none, ErrorData.fields [⟨"jwt", "Jeton d'authentification invalide"⟩], 400⟩

/-- The condition `_, ok := token.Claims.(jwt.MapClaims); ok && token.Valid`. -/
def Token.okAndValid (token : Token) : Bool :=
  match token.Claims with
  | Claims.MapClaims _ => token.Valid
  | Claims.Other => false

/-- The middleware `isAuthorized` around `handler`, serving `r` at Unix time
`now`. -/
def isAuthorized {α : Type} (lib : Lib) (env : Option String) (now : Int)
    (handler : Request → α) (r : Request) : Served α :=
  let reqToken := r.headerGet
  let splitToken := strings_Split reqToken "Bearer "
  match splitToken[1]? with
  | none => Served.panicked
  | some reqToken =>
      if reqToken = "" then Served.replied missingTokenResponse
      else
        match extractTokenFromJWT lib env now reqToken with
        | Run.panic => Served.panicked
        | Run.fatal => Served.exited
        | Run.done (Except.error e) => Served.replied (decodeErrorResponse e)
        | Run.done (Except.ok token) =>
            if token.okAndValid then Served.forwarded (handler r)
            else Served.replied invalidTokenResponse

/-! ## The store -/

/-- The tables the handlers below touch, and the sequence that numbers new
reports. -/
structure DB where
  pets : List Pet
  reports : List Report
  reportSeq : Nat
  deriving DecidableEq, Repr

/-- The zero value of `Pet`. -/
def Pet.zero : Pet := ⟨0, "", "", "", "", "", 0, 0, false⟩

/-- The call `db.Find(&pet, id)` on a zero `pet`: the row that is not
soft-deleted and has this primary key, else `pet` stays zero. -/
def DB.findPet (db : DB) (id : ℚ) : Pet :=
  (db.pets.find? (fun p => !p.Deleted && decide ((p.ID : ℚ) = id))).getD Pet.zero

/-- The call `db.Create(&report)`: the columns are checked against their
`varchar` sizes, a zero `ID` is taken from the sequence, and the primary key
must be new.  The result is the stored row and the new state, or an error,
whose text stands for the message of the database. -/
def DB.createReport (db : DB) (report : Report) : Except String (Report × DB) :=
  if report.PhoneNumber.length > 20 ∨ report.City.length > 50 ∨ report.Where.length > 50
      ∨ report.Additional.length > 255 then
    Except.error "ERROR: value too long for type character varying (SQLSTATE 22001)"
  else
    let seq := if report.ID = 0 then db.reportSeq + 1 else db.reportSeq
    let row := if report.ID = 0 then { report with ID := seq } else report
    if db.reports.any (fun x => x.ID = row.ID) then
      Except.error "ERROR: duplicate key value violates unique constraint (SQLSTATE 23505)"
    else Except.ok (row, { db with reports := db.reports ++ [row], reportSeq := seq })

/-- The call `db.Where("slug = ?", slug).Delete(&Pet{})`: every row with this
slug that is not yet soft-deleted becomes soft-deleted. -/
def DB.deletePetsBySlug (db : DB) (slug : String) : DB :=
  { db with pets := db.pets.map (fun p => if p.Slug = slug ∧ p.Deleted = false then
      { p with Deleted := true } else p) }

/-! ## `report.go` and `pet.go` -/

/-- What a handler does: how it ends (with the response it wrote, when it
returns) and the state of the store afterwards. -/
abbrev Effect := Run HTTPResponse × DB

/-- The handler `CreateReport`, serving `r` at Unix time `now`. -/
def CreateReport (lib : Lib) (env : Option String) (now : Int) (r : Request) (db : DB) : Effect :=
  let petSlug := r.slug
  match lib.decodeReport r.body with
  | Except.error e => (Run.done ⟨Data.none, ErrorData.text e, 400⟩, db)
  | Except.ok report =>
      let reqToken := r.headerGet
      let splitToken := strings_Split reqToken "Bearer "
      match splitToken[1]? with
      | none => (Run.panic, db)
      | some reqToken =>
          if reqToken = "" then (Run.done missingTokenResponse, db)
          else
            match extractTokenFromJWT lib env now reqToken with
            | Run.panic => (Run.panic, db)
            | Run.fatal => (Run.fatal, db)
            | Run.done (Except.error e) => (Run.done (decodeErrorResponse e), db)
            | Run.done (Except.ok token) =>
                match readReportJWTClaims token with
                | Run.panic => (Run.panic, db)
                | Run.fatal => (Run.fatal, db)
                | Run.done (Except.error _) => (Run.panic, db)
                | Run.done (Except.ok claims) =>
                    let pet := db.findPet claims.id
                    if pet.Slug ≠ petSlug then (Run.done invalidTokenResponse, db)
                    else if token.okAndValid then
                      match r.requestID with
                      | none => (Run.panic, db)
                      | some _ =>
                          match db.createReport { report with PetID := pet.ID } with
                          | Except.error e => (Run.done ⟨Data.none, ErrorData.text e, 400⟩, db)
                          | Except.ok (row, db1) =>
                              (Run.done ⟨Data.report row, ErrorData.none, 201⟩, db1)
                    else (Run.done invalidTokenResponse, db)

/-- The handler `DeletePet`. -/
def DeletePet (lib : Lib) (r : Request) (db : DB) : Effect :=
  let petID := r.slug
  if !lib.uuidParse petID then
    (Run.done ⟨Data.none,
      ErrorData.fields [⟨"slug", "L'identifiant de votre animal semble invalide"⟩], 400⟩, db)
  else
    (Run.done ⟨Data.text "L'enregistrement a bien été supprimé", ErrorData.none, 200⟩,
      db.deletePetsBySlug petID)

/-- A route registered on a router that uses `isAuthorized` (`petsRouter`,
`usersRouter` in `main.go`): the gate, then the handler on the store. -/
def protectedRoute (lib : Lib) (env : Option String) (now : Int)
    (handler : Request → DB → Effect) (r : Request) (db : DB) : Effect :=
  match isAuthorized lib env now handler r with
  | Served.forwarded run => run db
  | Served.replied resp => (Run.done resp, db)
  | Served.panicked => (Run.panic, db)
  | Served.exited => (Run.fatal, db)

/-! ## `pet.go`: `Validate` and `UpdatePet` -/

/-- The method `Pet.Validate`, with its pointer receiver passed as state: the
field errors it returns, and the pet as the call leaves it. -/
def Pet.Validate (p : Pet) : FieldErrors × Pet :=
  let fieldErr : FieldErrors := []
  let fieldErr :=
    if p.Name = "" then fieldErr ++ [⟨"name", "Le nom est obligatoire"⟩] else fieldErr
  let fieldErr :=
    if p.Breed = "" then fieldErr ++ [⟨"breed", "La race est obligatoire"⟩] else fieldErr
  let fieldErr :=
    if p.Sexe ≠ "male" ∧ p.Sexe ≠ "female" then
      fieldErr ++ [⟨"sexe", "Est-ce un male ou une femelle ?"⟩]
    else fieldErr
  let fieldErr :=
    if p.Birthdate = "" then
      fieldErr ++ [⟨"birthdate", "La date de naissance est obligatoire"⟩]
    else fieldErr
  (fieldErr, p)

/-- The query `db.Where("user_id = ?", id).Where("slug = ?", slug).First(&pet)`:
the row of this owner and slug that is not soft-deleted (the slug column is
unique), else the error `record not found`. -/
def DB.firstPetOfUser (db : DB) (id : ℚ) (slug : String) : Except String Pet :=
  match db.pets.find? (fun p =>
      !p.Deleted && decide ((p.UserID : ℚ) = id) && decide (p.Slug = slug)) with
  | some pet => Except.ok pet
  | none => Except.error "record not found"

/-- The call `tx.Save(&pet)` on a pet read from the table, with the hook
`AfterSave`: the columns are checked against their `varchar` sizes, the row
with the primary key of `pet` that is not soft-deleted takes the values of
`pet`, and a pet without a QR code gets one, whose identifier `qrCodeID` the
database chooses (the table of QR codes is not part of `DB`).  The result is
the pet as saved and the new state, or an error, whose text stands for the
message of the database. -/
def DB.savePet (db : DB) (pet : Pet) (qrCodeID : Nat) : Except String (Pet × DB) :=
  if pet.Name.length > 30 ∨ pet.Sexe.length > 10 ∨ pet.Birthdate.length > 12
      ∨ pet.Slug.length > 40 then
    Except.error "ERROR: value too long for type character varying (SQLSTATE 22001)"
  else
    let saved := if pet.QRCodeID ≠ 0 then pet else { pet with QRCodeID := qrCodeID }
    Except.ok (saved, { db with pets := db.pets.map (fun p =>
      if p.ID = pet.ID ∧ p.Deleted = false then saved else p) })

/-- The handler `UpdatePet`, serving `r` at Unix time `now`; `qrCodeID` is the
identifier the database gives a QR code that `AfterSave` creates.  A nil
`userToken` is dereferenced only at the query, and when `tx.Save` fails the
handler calls `query.Error.Error()` on a nil error: both panic, the second
before the transaction is committed. -/
def UpdatePet (lib : Lib) (env : Option String) (now : Int) (qrCodeID : Nat) (r : Request)
    (db : DB) : Effect :=
  let petSlug := r.slug
  let reqToken := r.headerGet
  let splitToken := strings_Split reqToken "Bearer "
  match splitToken[1]? with
  | none => (Run.panic, db)
  | some reqToken =>
      match extractTokenFromJWT lib env now reqToken with
      | Run.panic => (Run.panic, db)
      | Run.fatal => (Run.fatal, db)
      | Run.done (Except.error e) =>
          (Run.done ⟨Data.none, ErrorData.fields [⟨"-", e⟩], 400⟩, db)
      | Run.done (Except.ok token) =>
          match readJWTClaims token with
          | Run.panic => (Run.panic, db)
          | Run.fatal => (Run.fatal, db)
          | Run.done userToken =>
              if !lib.uuidParse petSlug then
                (Run.done ⟨Data.none,
                  ErrorData.fields [⟨"slug", "L'identifiant de votre animal semble invalide"⟩],
                  400⟩, db)
              else
                match lib.decodePet r.body with
                | Except.error e =>
                    (Run.done ⟨Data.none, ErrorData.fields [⟨"-", e⟩], 400⟩, db)
                | Except.ok incomingPet =>
                    let errors := incomingPet.Validate.1
                    let incomingPet := incomingPet.Validate.2
                    if errors.length > 0 then
                      (Run.done ⟨Data.pet incomingPet, ErrorData.fields errors, 422⟩, db)
                    else
                      match userToken with
                      | Except.error _ => (Run.panic, db)
                      | Except.ok userToken =>
                          match db.firstPetOfUser userToken.id petSlug with
                          | Except.error e =>
                              (Run.done ⟨Data.none, ErrorData.fields [⟨"-", e⟩], 401⟩, db)
                          | Except.ok existingPet =>
                              let existingPet :=
                                { existingPet with
                                  Name := incomingPet.Name, Breed := incomingPet.Breed,
                                  Birthdate := incomingPet.Birthdate, Sexe := incomingPet.Sexe }
                              match db.savePet existingPet qrCodeID with
                              | Except.error _ => (Run.panic, db)
                              | Except.ok (saved, db1) =>
                                  (Run.done ⟨Data.pet saved, ErrorData.none, 200⟩, db1)

/-! ## Helpers to state the properties -/

/-- The string `SignedString` returns for an HMAC method with hash `h`. -/
def signedToken (lib : Lib) (h : Hash) (header claims : List (String × GoVal)) (key : Bytes) :
    String :=
  SigningString lib header claims ++ "." ++
    lib.EncodeSegment (hmacSum lib h key (bytesOf (SigningString lib header claims)))

/-- The signing method the header of a token string names: the string under
`alg` in the decoded first segment. -/
def tokenAlg (lib : Lib) (tokenString : String) : Option String :=
  match strings_Split tokenString "." with
  | [p0, _, _] =>
      match lib.DecodeSegment p0 with
      | Except.error _ => none
      | Except.ok headerBytes =>
          match lib.Unmarshal headerBytes with
          | Except.error _ => none
          | Except.ok header =>
              match header.at "alg" with
              | JVal.str method => some method
              | _ => none
  | _ => none

/-- The claims a token string carries: the decoded second segment. -/
def tokenClaims (lib : Lib) (tokenString : String) : Option JMap :=
  match strings_Split tokenString "." with
  | [_, p1, _] =>
      match lib.DecodeSegment p1 with
      | Except.error _ => none
      | Except.ok claimBytes =>
          match lib.Decode claimBytes with
          | Except.error _ => none
          | Except.ok claims => some claims
  | _ => none

/-! ## A reference instance of the library interface

The instance shows that the laws of `Lib.Lawful` can be met.  A segment is
written in unary, a map as three numbers per entry. -/

/-- Reads back the numbers of a unary segment. -/
def refDecodeUnary : Nat → List Char → List Nat
  | _, [] => []
  | k, c :: cs => if c = '-' then k :: refDecodeUnary 0 cs else refDecodeUnary (k + 1) cs

/-- The number that stands for a string. -/
def refStrCode (s : String) : Nat :=
  Encodable.encode (s.data.map Char.toNat)

/-- The string a number stands for. -/
def refStrOfCode (n : Nat) : String :=
  String.mk (((Encodable.decode n : Option (List Nat)).getD []).map Char.ofNat)

/-- The tag and payload of a value. -/
def refValCode : GoVal → Nat × Nat
  | GoVal.bool b => (0, if b then 1 else 0)
  | GoVal.uint n => (1, n)
  | GoVal.int64 i => (if i < 0 then 3 else 2, i.natAbs)
  | GoVal.str s => (4, refStrCode s)

/-- The value of a tag and payload. -/
def refValOfCode (tag payload : Nat) : GoVal :=
  if tag = 0 then GoVal.bool (decide (payload = 1))
  else if tag = 1 then GoVal.uint payload
  else if tag = 2 then GoVal.int64 payload
  else if tag = 3 then GoVal.int64 (-(payload : Int))
  else GoVal.str (refStrOfCode payload)

/-- Writes a map as three numbers per entry. -/
def refMarshal : List (String × GoVal) → Bytes
  | [] => []
  | (k, v) :: rest => refStrCode k :: (refValCode v).1 :: (refValCode v).2 :: refMarshal rest

/-- Reads a map back, each value as it is after a JSON round trip. -/
def refUnmarshal : Bytes → JMap
  | k :: tag :: payload :: rest => (refStrOfCode k, wire (refValOfCode tag payload)) :: refUnmarshal rest
  | _ => []

/-- The reference instance. -/
def refLib : Lib where
  sum := fun _ b => b
  EncodeSegment := fun b => String.mk (b.flatMap (fun n => List.replicate n 'x' ++ ['-']))
  DecodeSegment := fun s => Except.ok (refDecodeUnary 0 s.data)
  Marshal := refMarshal
  Unmarshal := fun b => Except.ok (refUnmarshal b)
  Decode := fun b => Except.ok (refUnmarshal b)
  decodeReport := fun body =>
    if body = "" then Except.error "EOF" else Except.ok ⟨0, body, "", "", false, "", 0⟩
  decodePet := fun body =>
    if body = "" then Except.error "EOF" else Except.ok { Pet.zero with Name := body }
  uuidParse := fun s => decide (s.length = 36)

/-- The pet of the scenarios: identifier 42, slug `abc`, owned by user 1. -/
def refPet : Pet := ⟨42, "Rex", "Beagle", "male", "01/01/2020", "abc", 1, 0, false⟩

/-- A store that holds `refPet` and nothing else. -/
def refDB : DB := ⟨[refPet], [], 0⟩

/-- The report token `generateReportJWT` issues for `refPet` at time 1000 under
the reference library and the secret `k`. -/
def refReportToken : String :=
  signedToken refLib Hash.SHA256 (jwt_New SigningMethodHS256).1 (reportClaims refPet 1000)
    (bytesOf "k")

/-- The session token `generateJWT` issues for user 1 at time 1000 under the
reference library and the secret `k`. -/
def refSessionToken : String :=
  signedToken refLib Hash.SHA256 (jwt_New SigningMethodHS256).1
    (sessionClaims ⟨1, "a@b.c", "", "", ""⟩ 1000) (bytesOf "k")

/-- A slug the reference `uuidParse` accepts. -/
def refUuid : String := "123e4567-e89b-12d3-a456-426614174000"

/-- A store that holds one pet, `refPet` under the slug `refUuid`. -/
def refUuidDB : DB := ⟨[{ refPet with Slug := refUuid }], [], 0⟩

/-! ## Lemmas: `strings.Split` -/



theorem splitGo_skip (sep : List Char) (pre s acc : List Char) :
    splitGo sep pre.length acc (pre ++ s) = splitGo sep 0 acc s := by
  induction pre with
  | nil => rfl
  | cons c cs ih => simpa [splitGo] using ih

theorem splitGo_no_occurrence (sep : List Char) (s : List Char) (h : ¬ sep <:+: s) :
    ∀ acc, splitGo sep 0 acc s = [acc.reverse ++ s] := by
  induction s with
  | nil => intro acc; simp [splitGo]
  | cons c cs ih =>
    intro acc
    have h1 : sep.isPrefixOf (c :: cs) = false := by
      cases hp : sep.isPrefixOf (c :: cs) with
      | false => rfl
      | true =>
        exact absurd (( List.isPrefixOf_iff_prefix.mp hp).isInfix) h
    have h2 : ¬ sep <:+: cs := fun hc => h (hc.trans (List.suffix_cons c cs).isInfix)
    simp [splitGo, h1, ih h2]

theorem splitGo_at_sep (c : Char) (sep s acc : List Char) :
    splitGo (c :: sep) 0 acc ((c :: sep) ++ s) = acc.reverse :: splitGo (c :: sep) 0 [] s := by
  have hp : (c :: sep).isPrefixOf (c :: (sep ++ s)) = true := by
    rw [ List.isPrefixOf_iff_prefix]
    exact List.prefix_append (c :: sep) s
  have := splitGo_skip (c :: sep) sep s []
  simp [splitGo, hp, this]

theorem splitGo_char (d : Char) (a rest : List Char) (ha : d ∉ a) :
    ∀ acc, splitGo [d] 0 acc (a ++ d :: rest) = (acc.reverse ++ a) :: splitGo [d] 0 [] rest := by
  induction a with
  | nil => intro acc; simp [splitGo]
  | cons c cs ih =>
    intro acc
    have hc : c ≠ d := fun e => ha (by simp [e])
    have hcs : d ∉ cs := fun e => ha (by simp [e])
    simp [splitGo, hc, ih hcs, Ne.symm hc]

theorem strings_Split_bearer (s : String) (h : ¬ "Bearer ".data <:+: s.data) :
    strings_Split ("Bearer " ++ s) "Bearer " = ["", s] := by
  have h0 : ("Bearer " : String) ≠ "" := by decide
  have h1 : ("Bearer " ++ s).data = ['B', 'e', 'a', 'r', 'e', 'r', ' '] ++ s.data := by
    simp [String.data_append]
  have h2 : ("Bearer " : String).data = ['B', 'e', 'a', 'r', 'e', 'r', ' '] := rfl
  rw [h2] at h
  simp only [strings_Split, h0, if_false, h1, h2]
  rw [splitGo_at_sep, splitGo_no_occurrence _ _ h]
  rfl

theorem strings_Split_three (a b c : String) (ha : '.' ∉ a.data) (hb : '.' ∉ b.data)
    (hc : '.' ∉ c.data) : strings_Split (a ++ "." ++ b ++ "." ++ c) "." = [a, b, c] := by
  have h0 : ("." : String) ≠ "" := by decide
  have h1 : (a ++ "." ++ b ++ "." ++ c).data = a.data ++ '.' :: (b.data ++ '.' :: c.data) := by
    simp [String.data_append]
  have h2 : ("." : String).data = ['.'] := rfl
  have h3 : ¬ ['.'] <:+: c.data := by
    intro hi
    exact hc (hi.subset (by simp))
  simp only [strings_Split, h0, if_false, h1, h2]
  rw [splitGo_char _ _ _ ha, splitGo_char _ _ _ hb, splitGo_no_occurrence _ _ h3]
  simp

theorem no_bearer_of_no_blank (s : String) (h : ' ' ∉ s.data) : ¬ "Bearer ".data <:+: s.data := by
  intro hi
  exact h (hi.subset (by decide))

/-! ### Numbers -/

/-- The fuel of `excessBits` is enough below `2 ^ (53 + fuel)`: what is left
after dropping the counted bits has at most 53 bits. -/
theorem excessBits_fits (fuel n : Nat) (h : n < 2 ^ (53 + fuel)) :
    n / 2 ^ excessBits fuel n < 2 ^ 53 := by
  induction fuel generalizing n with
  | zero => simpa [excessBits] using h
  | succ f ih =>
    unfold excessBits
    by_cases hn : n < 2 ^ 53
    · rw [if_pos hn]
      simpa using hn
    · rw [if_neg hn]
      have h2 : n / 2 < 2 ^ (53 + f) := by
        have : 2 ^ (53 + (f + 1)) = 2 ^ (53 + f) * 2 := by rw [← Nat.add_assoc, Nat.pow_succ]
        omega
      have := ih (n / 2) h2
      rwa [Nat.pow_succ, Nat.mul_comm, ← Nat.div_div_eq_div_mul]

theorem excessBits_small (fuel n : Nat) (h : n < 2 ^ 53) : excessBits fuel n = 0 := by
  cases fuel with
  | zero => rfl
  | succ f =>
    unfold excessBits
    rw [if_pos h]

theorem toFloat64_exact (n : Nat) (h : n ≤ 2 ^ 53) : toFloat64 n = n := by
  rcases Nat.lt_or_eq_of_le h with h1 | h1
  · simp [toFloat64, excessBits_small _ _ h1]
  · subst h1
    decide

theorem int64OfFloat_intCast (i : Int) (h1 : -(2 : Int) ^ 63 ≤ i) (h2 : i < (2 : Int) ^ 63) :
    int64OfFloat (i : ℚ) = i := by
  unfold int64OfFloat
  have : (if (0 : ℚ) ≤ (i : ℚ) then ⌊(i : ℚ)⌋ else ⌈(i : ℚ)⌉) = i := by
    split <;> simp
  simp only [this]
  rw [if_pos ⟨h1, h2⟩]

theorem wire_int64_exact (i : Int) (h : i.natAbs ≤ 2 ^ 53) : wire (GoVal.int64 i) = JVal.num (i : ℚ) := by
  simp only [wire]
  rw [toFloat64_exact _ h]
  congr 1
  have h3 : ((i.natAbs : ℕ) : ℚ) = ((|i| : ℤ) : ℚ) := by rw [Nat.cast_natAbs]
  rw [h3]
  split
  · rename_i hneg
    rw [abs_of_neg hneg]; push_cast; ring
  · rename_i hpos
    rw [abs_of_nonneg (not_lt.mp hpos)]

theorem wire_uint_exact (n : Nat) (h : n ≤ 2 ^ 53) : wire (GoVal.uint n) = JVal.num (n : ℚ) := by
  simp only [wire]
  rw [toFloat64_exact _ h]

/-! ### The reference instance is lawful -/

theorem refDecodeUnary_number (n k : Nat) (rest : List Char) :
    refDecodeUnary k (List.replicate n 'x' ++ '-' :: rest) = (k + n) :: refDecodeUnary 0 rest := by
  induction n generalizing k with
  | zero => simp [refDecodeUnary]
  | succ n ih =>
    have hx : ('x' : Char) ≠ '-' := by decide
    simp [List.replicate_succ, refDecodeUnary, hx, ih]
    omega

theorem refDecodeUnary_encode (b : Bytes) :
    refDecodeUnary 0 (b.flatMap (fun n => List.replicate n 'x' ++ ['-'])) = b := by
  induction b with
  | nil => rfl
  | cons n ns ih =>
    simp only [List.flatMap_cons, List.append_assoc, List.singleton_append]
    rw [refDecodeUnary_number, ih]
    simp

theorem refStrOfCode_code (s : String) : refStrOfCode (refStrCode s) = s := by
  unfold refStrOfCode refStrCode
  rw [Encodable.encodek]
  simp [List.map_map, Function.comp_def]

theorem refValOfCode_code (v : GoVal) : refValOfCode (refValCode v).1 (refValCode v).2 = v := by
  cases v with
  | bool b => cases b <;> simp [refValCode, refValOfCode]
  | uint n => simp [refValCode, refValOfCode]
  | int64 i =>
    by_cases h : i < 0
    · have e : -((i.natAbs : ℕ) : ℤ) = i := by omega
      simp only [refValCode, refValOfCode, h, if_true]
      simp only [e]
      try simp
    · have e : ((i.natAbs : ℕ) : ℤ) = i := by omega
      simp only [refValCode, refValOfCode, h, if_false]
      simp only [e]
      try simp
  | str s => simp [refValCode, refValOfCode, refStrOfCode_code]

theorem refUnmarshal_marshal (m : List (String × GoVal)) :
    refUnmarshal (refMarshal m) = m.map (fun e => (e.1, wire e.2)) := by
  induction m with
  | nil => rfl
  | cons e rest ih =>
    obtain ⟨k, v⟩ := e
    simp [refMarshal, refUnmarshal, refStrOfCode_code, refValOfCode_code, ih]

theorem lookup_map_wire (m : List (String × GoVal)) (k : String) :
    (m.map (fun e => (e.1, wire e.2))).lookup k = (m.lookup k).map wire := by
  induction m with
  | nil => rfl
  | cons e rest ih =>
    obtain ⟨k1, v⟩ := e
    simp only [List.map_cons, List.lookup_cons]
    cases hk : (k == k1) <;> simp [ih]

theorem refLib_lawful : refLib.Lawful where
  segment := fun b => by
    show Except.ok (refDecodeUnary 0 (String.mk _).data) = Except.ok b
    rw [refDecodeUnary_encode]
  alphabet := fun b c hc => by
    have hc1 : c ∈ b.flatMap (fun n => List.replicate n 'x' ++ ['-']) := hc
    simp only [List.mem_flatMap, List.mem_append, List.mem_replicate, List.mem_singleton] at hc1
    obtain ⟨n, _, h | h⟩ := hc1
    · rw [h.2]; decide
    · rw [h]; decide
  unmarshal := fun m => ⟨refUnmarshal (refMarshal m), rfl, fun k => by
    rw [refUnmarshal_marshal, lookup_map_wire]⟩
  decode := fun m => ⟨refUnmarshal (refMarshal m), rfl, fun k => by
    rw [refUnmarshal_marshal, lookup_map_wire]⟩

/-! ### Issued tokens -/

theorem SignedString_HMAC (lib : Lib) (name : String) (h : Hash)
    (header claims : List (String × GoVal)) (key : Bytes) :
    SignedString lib (SigningMethod.HMAC name h) header claims key
      = Except.ok (signedToken lib h header claims key) := rfl

theorem getJWTSecret_set (secret : String) (hs : secret ≠ "") :
    getJWTSecret (some secret) = Run.done (bytesOf secret) := by
  simp [getJWTSecret, hs]

theorem no_dot_segment (lib : Lib) (hl : lib.Lawful) (b : Bytes) : '.' ∉ (lib.EncodeSegment b).data :=
  fun h => (hl.alphabet b '.' h).1 rfl

theorem no_blank_segment (lib : Lib) (hl : lib.Lawful) (b : Bytes) : ' ' ∉ (lib.EncodeSegment b).data :=
  fun h => (hl.alphabet b ' ' h).2 rfl

theorem signedToken_split (lib : Lib) (hl : lib.Lawful) (h : Hash)
    (header claims : List (String × GoVal)) (key : Bytes) :
    strings_Split (signedToken lib h header claims key) "."
      = [lib.EncodeSegment (lib.Marshal header), lib.EncodeSegment (lib.Marshal claims),
          lib.EncodeSegment (hmacSum lib h key (bytesOf (SigningString lib header claims)))] := by
  unfold signedToken SigningString
  exact strings_Split_three _ _ _ (no_dot_segment lib hl _) (no_dot_segment lib hl _)
    (no_dot_segment lib hl _)

theorem ParseUnverified_signed (lib : Lib) (hl : lib.Lawful) (claims : List (String × GoVal))
    (key : Bytes) :
    ∃ jh jc : JMap, (∀ k : String, jc.lookup k = (claims.lookup k).map wire) ∧
      ParseUnverified lib (signedToken lib Hash.SHA256 (jwt_New SigningMethodHS256).1 claims key)
        = Except.ok
            (⟨signedToken lib Hash.SHA256 (jwt_New SigningMethodHS256).1 claims key,
                SigningMethodHS256, jh, Claims.MapClaims jc, "", false⟩,
              lib.EncodeSegment (lib.Marshal (jwt_New SigningMethodHS256).1),
              lib.EncodeSegment (lib.Marshal claims),
              lib.EncodeSegment (hmacSum lib Hash.SHA256 key
                (bytesOf (SigningString lib (jwt_New SigningMethodHS256).1 claims)))) := by
  obtain ⟨jh, hjh, hjhk⟩ := hl.unmarshal (jwt_New SigningMethodHS256).1
  obtain ⟨jc, hjc, hjck⟩ := hl.decode claims
  refine ⟨jh, jc, hjck, ?_⟩
  have halg : jh.at "alg" = JVal.str "HS256" := by
    unfold JMap.at
    rw [hjhk "alg"]
    rfl
  have hm : GetSigningMethod "HS256" = some SigningMethodHS256 := by decide
  unfold ParseUnverified
  rw [signedToken_split lib hl]
  simp only [hl.segment, hjh, hjc, halg, hm]

theorem extract_signed (lib : Lib) (hl : lib.Lawful) (secret : String) (hs : secret ≠ "")
    (claims : List (String × GoVal)) (key : Bytes) (now : Int) :
    ∃ jh jc : JMap, (∀ k : String, jc.lookup k = (claims.lookup k).map wire) ∧
      extractTokenFromJWT lib (some secret) now
          (signedToken lib Hash.SHA256 (jwt_New SigningMethodHS256).1 claims key)
        = if hmacSum lib Hash.SHA256 key
              (bytesOf (SigningString lib (jwt_New SigningMethodHS256).1 claims))
            = hmacSum lib Hash.SHA256 (bytesOf secret)
              (bytesOf (SigningString lib (jwt_New SigningMethodHS256).1 claims)) then
            match MapClaims_Valid jc now with
            | some e => Run.done (Except.error e)
            | none =>
                Run.done (Except.ok
                  ⟨signedToken lib Hash.SHA256 (jwt_New SigningMethodHS256).1 claims key,
                    SigningMethodHS256, jh, Claims.MapClaims jc,
                    lib.EncodeSegment (hmacSum lib Hash.SHA256 key
                      (bytesOf (SigningString lib (jwt_New SigningMethodHS256).1 claims))), true⟩)
          else Run.done (Except.error "signature is invalid") := by
  obtain ⟨jh, jc, hjc, hp⟩ := ParseUnverified_signed lib hl claims key
  refine ⟨jh, jc, hjc, ?_⟩
  unfold extractTokenFromJWT jwt_Parse
  rw [hp]
  simp only [keyFunc, SigningMethodHS256, getJWTSecret_set secret hs, SigningMethod.Verify,
    hl.segment, Claims.Valid]
  have hsstr : lib.EncodeSegment (lib.Marshal (jwt_New (SigningMethod.HMAC "HS256" Hash.SHA256)).1)
      ++ "." ++ lib.EncodeSegment (lib.Marshal claims)
      = SigningString lib (jwt_New (SigningMethod.HMAC "HS256" Hash.SHA256)).1 claims := rfl
  rw [hsstr]
  by_cases hmac : hmacSum lib Hash.SHA256 key
      (bytesOf (SigningString lib (jwt_New (SigningMethod.HMAC "HS256" Hash.SHA256)).1 claims))
      = hmacSum lib Hash.SHA256 (bytesOf secret)
        (bytesOf (SigningString lib (jwt_New (SigningMethod.HMAC "HS256" Hash.SHA256)).1 claims))
  · rw [if_pos hmac, if_pos hmac]
    cases hv : MapClaims_Valid jc now <;> rfl
  · rw [if_neg hmac, if_neg hmac]

theorem MapClaims_Valid_exp (jc : JMap) (e now : Int) (hexp : jc.lookup "exp" = some (JVal.num (e : ℚ)))
    (hiat : jc.lookup "iat" = none) (hnbf : jc.lookup "nbf" = none)
    (h1 : -(2 : Int) ^ 63 ≤ e) (h2 : e < (2 : Int) ^ 63) :
    MapClaims_Valid jc now = if e = 0 ∨ now ≤ e then none else some "Token is expired" := by
  unfold MapClaims_Valid verifyTime
  simp only [hexp, hiat, hnbf, int64OfFloat_intCast e h1 h2, verifyExp]
  by_cases h0 : e = 0
  · simp [h0]
  · by_cases hle : now ≤ e
    · simp [h0, hle]
    · simp [h0, hle]

theorem sessionClaims_lookup (user : User) (t : Int) :
    (sessionClaims user t).lookup "user_id" = some (GoVal.uint user.ID)
    ∧ (sessionClaims user t).lookup "email" = some (GoVal.str user.Email)
    ∧ (sessionClaims user t).lookup "exp" = some (GoVal.int64 (t + 60 * 60))
    ∧ (sessionClaims user t).lookup "pet_id" = none
    ∧ (sessionClaims user t).lookup "iat" = none
    ∧ (sessionClaims user t).lookup "nbf" = none := by
  refine ⟨?_, ?_, ?_, ?_, ?_, ?_⟩ <;> rfl

theorem reportClaims_lookup (pet : Pet) (t : Int) :
    (reportClaims pet t).lookup "pet_id" = some (GoVal.uint pet.ID)
    ∧ (reportClaims pet t).lookup "exp" = some (GoVal.int64 (t + 60 * 60))
    ∧ (reportClaims pet t).lookup "user_id" = none
    ∧ (reportClaims pet t).lookup "email" = none
    ∧ (reportClaims pet t).lookup "iat" = none
    ∧ (reportClaims pet t).lookup "nbf" = none := by
  refine ⟨?_, ?_, ?_, ?_, ?_, ?_⟩ <;> rfl

theorem sessionClaims_eq (user : User) (t : Int) :
    sessionClaims user t = [("authorized", GoVal.bool true), ("user_id", GoVal.uint user.ID),
      ("email", GoVal.str user.Email), ("exp", GoVal.int64 (t + 60 * 60))] := rfl

theorem natAbs_range (e : Int) (h : e.natAbs ≤ 2 ^ 53) :
    -(2 : Int) ^ 63 ≤ e ∧ e < (2 : Int) ^ 63 := by
  constructor <;> omega

theorem issued_accepted (lib : Lib) (hl : lib.Lawful) (secret : String) (hs : secret ≠ "")
    (claims : List (String × GoVal)) (key : Bytes) (e now : Int)
    (hmac : hmacSum lib Hash.SHA256 key
        (bytesOf (SigningString lib (jwt_New SigningMethodHS256).1 claims))
      = hmacSum lib Hash.SHA256 (bytesOf secret)
        (bytesOf (SigningString lib (jwt_New SigningMethodHS256).1 claims)))
    (hexp : claims.lookup "exp" = some (GoVal.int64 e)) (hiat : claims.lookup "iat" = none)
    (hnbf : claims.lookup "nbf" = none) (hrange : e.natAbs ≤ 2 ^ 53) (hnow : e = 0 ∨ now ≤ e) :
    ∃ (token : Token) (jc : JMap),
      extractTokenFromJWT lib (some secret) now
          (signedToken lib Hash.SHA256 (jwt_New SigningMethodHS256).1 claims key)
        = Run.done (Except.ok token)
      ∧ token.Valid = true ∧ token.Claims = Claims.MapClaims jc
      ∧ ∀ k : String, jc.lookup k = (claims.lookup k).map wire := by
  obtain ⟨jh, jc, hjc, hx⟩ := extract_signed lib hl secret hs claims key now
  have hv : MapClaims_Valid jc now = none := by
    have := MapClaims_Valid_exp jc e now
      (by rw [hjc, hexp]; simp only [Option.map_some']; rw [wire_int64_exact e hrange])
      (by rw [hjc, hiat]; rfl) (by rw [hjc, hnbf]; rfl)
      (natAbs_range e hrange).1 (natAbs_range e hrange).2
    rw [this, if_pos hnow]
  rw [if_pos hmac, hv] at hx
  exact ⟨_, jc, hx, rfl, rfl, hjc⟩

theorem readJWTClaims_num (token : Token) (jc : JMap) (x : ℚ) (s : String)
    (hv : token.Valid = true) (hc : token.Claims = Claims.MapClaims jc)
    (hu : jc.lookup "user_id" = some (JVal.num x)) (he : jc.lookup "email" = some (JVal.str s))
    (hs : s ≠ "") : readJWTClaims token = Run.done (Except.ok ⟨x⟩) := by
  unfold readJWTClaims
  rw [hc]
  simp [hv, JMap.at, hu, he, hs]

theorem readReportJWTClaims_num (token : Token) (jc : JMap) (x : ℚ)
    (hv : token.Valid = true) (hc : token.Claims = Claims.MapClaims jc)
    (hu : jc.lookup "pet_id" = some (JVal.num x)) :
    readReportJWTClaims token = Run.done (Except.ok ⟨x⟩) := by
  unfold readReportJWTClaims
  rw [hc]
  simp [hv, JMap.at, hu]

theorem generateJWT_set (lib : Lib) (secret : String) (hs : secret ≠ "") (t : Int) (user : User) :
    generateJWT lib (some secret) t user
      = Run.done (Except.ok (signedToken lib Hash.SHA256 (jwt_New SigningMethodHS256).1
          (sessionClaims user t) (bytesOf secret))) := by
  simp only [generateJWT, getJWTSecret_set secret hs]
  rfl

theorem generateReportJWT_set (lib : Lib) (secret : String) (hs : secret ≠ "") (t : Int) (pet : Pet) :
    generateReportJWT lib (some secret) t pet
      = Run.done (Except.ok (signedToken lib Hash.SHA256 (jwt_New SigningMethodHS256).1
          (reportClaims pet t) (bytesOf secret))) := by
  simp only [generateReportJWT, getJWTSecret_set secret hs]
  rfl

/-- Round trip of a session token, with the identifier as the `float64` it becomes. -/
theorem session_round_trip (lib : Lib) (hl : lib.Lawful) (secret : String) (hs : secret ≠ "")
    (user : User) (t now : Int) (hemail : user.Email ≠ "")
    (hrange : (t + 60 * 60).natAbs ≤ 2 ^ 53) (hnow : now ≤ t + 60 * 60) :
    ∃ (tok : String) (token : Token),
      generateJWT lib (some secret) t user = Run.done (Except.ok tok)
      ∧ extractTokenFromJWT lib (some secret) now tok = Run.done (Except.ok token)
      ∧ readJWTClaims token = Run.done (Except.ok ⟨(toFloat64 user.ID : Nat)⟩) := by
  obtain ⟨hu, he, hexp, _, hiat, hnbf⟩ := sessionClaims_lookup user t
  obtain ⟨token, jc, hx, hv, hc, hjc⟩ := issued_accepted lib hl secret hs (sessionClaims user t)
    (bytesOf secret) (t + 60 * 60) now rfl hexp hiat hnbf hrange (Or.inr hnow)
  refine ⟨_, token, generateJWT_set lib secret hs t user, hx, ?_⟩
  exact readJWTClaims_num token jc _ user.Email hv hc (by rw [hjc, hu]; rfl) (by rw [hjc, he]; rfl)
    hemail

theorem report_round_trip (lib : Lib) (hl : lib.Lawful) (secret : String) (hs : secret ≠ "")
    (pet : Pet) (t now : Int)
    (hrange : (t + 60 * 60).natAbs ≤ 2 ^ 53) (hnow : now ≤ t + 60 * 60) :
    ∃ (tok : String) (token : Token),
      generateReportJWT lib (some secret) t pet = Run.done (Except.ok tok)
      ∧ extractTokenFromJWT lib (some secret) now tok = Run.done (Except.ok token)
      ∧ readReportJWTClaims token = Run.done (Except.ok ⟨(toFloat64 pet.ID : Nat)⟩) := by
  obtain ⟨hu, hexp, _, _, hiat, hnbf⟩ := reportClaims_lookup pet t
  obtain ⟨token, jc, hx, hv, hc, hjc⟩ := issued_accepted lib hl secret hs (reportClaims pet t)
    (bytesOf secret) (t + 60 * 60) now rfl hexp hiat hnbf hrange (Or.inr hnow)
  refine ⟨_, token, generateReportJWT_set lib secret hs t pet, hx, ?_⟩
  exact readReportJWTClaims_num token jc _ hv hc (by rw [hjc, hu]; rfl)

/-! ### Expiry -/

theorem int64OfFloat_lt (x : ℚ) (now : Int) (hlt : x < now) (hnow : 0 ≤ now)
    (hz : int64OfFloat x ≠ 0) : int64OfFloat x < now := by
  unfold int64OfFloat at hz ⊢
  by_cases hx : 0 ≤ x
  · simp only [hx, if_true] at hz ⊢
    have h1 : ⌊x⌋ < now := Int.floor_lt.mpr hlt
    split
    · exact h1
    · omega
  · simp only [hx, if_false] at hz ⊢
    have h1 : ⌈x⌉ ≤ 0 := Int.ceil_le.mpr (by push_cast; exact le_of_lt (not_le.mp hx))
    split
    · rename_i hr
      simp only [hr, and_self, if_true] at hz
      omega
    · omega

theorem MapClaims_Valid_expired (jc : JMap) (x : ℚ) (now : Int)
    (hexp : jc.lookup "exp" = some (JVal.num x)) (hz : int64OfFloat x ≠ 0)
    (hlt : int64OfFloat x < now) : ∃ msg : String, MapClaims_Valid jc now = some msg := by
  have h : verifyTime verifyExp jc "exp" now false = false := by
    simp [verifyTime, hexp, verifyExp, hz, hlt]
  unfold MapClaims_Valid
  simp only [h]
  by_cases h3 : verifyTime verifyNbf jc "nbf" now false = true
  · by_cases h2 : verifyTime verifyIat jc "iat" now false = true
    · exact ⟨"Token is expired", by simp [h2, h3]⟩
    · exact ⟨"Token used before issued", by simp [h2, h3]⟩
  · exact ⟨"Token is not valid yet", by simp [h3]⟩

theorem ParseUnverified_claims (lib : Lib) (tok : String) (token : Token) (p0 p1 p2 : String)
    (jc : JMap) (hp : ParseUnverified lib tok = Except.ok (token, p0, p1, p2))
    (hc : tokenClaims lib tok = some jc) : token.Claims = Claims.MapClaims jc := by
  unfold ParseUnverified at hp
  unfold tokenClaims at hc
  split at hp
  · rename_i q0 q1 q2 hsplit
    rw [hsplit] at hc
    simp only at hc
    split at hp
    · split at hp <;> cases hp
    · split at hp
      · cases hp
      · split at hp
        · cases hp
        · rename_i cb hcb
          rw [hcb] at hc
          simp only at hc
          split at hp
          · cases hp
          · rename_i cl hcl
            rw [hcl] at hc
            simp only [Option.some.injEq] at hc
            subst hc
            split at hp
            · split at hp
              · cases hp
              · cases hp
                rfl
            · cases hp
  · cases hp

/-! ## C1: issue, verify, read -/

/-- C1 (counterexample): with the reference library and the secret `k`, the
session token of the user with id `2^53 + 1` verifies and `readJWTClaims`
returns the id `2^53`, which is not the user's id; and a token issued at
`t = 2^53 - 3599` is rejected as expired at `now = t + 3600`, the second of
its expiry. -/
theorem round_trip_rounds_large_numbers :
    (∃ (tok : String) (token : Token),
      generateJWT refLib (some "k") 0 ⟨2 ^ 53 + 1, "a@b.c", "", "", ""⟩ = Run.done (Except.ok tok)
      ∧ extractTokenFromJWT refLib (some "k") 0 tok = Run.done (Except.ok token)
      ∧ readJWTClaims token = Run.done (Except.ok ⟨2 ^ 53⟩)
      ∧ (⟨2 ^ 53⟩ : Identity) ≠ ⟨((2 ^ 53 + 1 : Nat) : ℚ)⟩)
    ∧ (∃ tok : String,
      generateJWT refLib (some "k") (2 ^ 53 - 3599) ⟨1, "a@b.c", "", "", ""⟩
        = Run.done (Except.ok tok)
      ∧ extractTokenFromJWT refLib (some "k") (2 ^ 53 - 3599 + 3600) tok
        = Run.done (Except.error "Token is expired")) := by
  constructor
  · obtain ⟨tok, token, h1, h2, h3⟩ := session_round_trip refLib refLib_lawful "k" (by decide)
      ⟨2 ^ 53 + 1, "a@b.c", "", "", ""⟩ 0 0 (by decide) (by decide) (by decide)
    refine ⟨tok, token, h1, h2, ?_, ?_⟩
    · rw [h3]
      have : toFloat64 (2 ^ 53 + 1) = 2 ^ 53 := by decide
      simp only [this]
      norm_num
    · intro h
      have := congrArg Identity.id h
      norm_num at this
  · refine ⟨_, generateJWT_set refLib "k" (by decide) _ _, ?_⟩
    obtain ⟨jh, jc, hjc, hx⟩ := extract_signed refLib refLib_lawful "k" (by decide)
      (sessionClaims ⟨1, "a@b.c", "", "", ""⟩ (2 ^ 53 - 3599)) (bytesOf "k") (2 ^ 53 - 3599 + 3600)
    rw [hx, if_pos rfl]
    obtain ⟨_, _, hexp, _, hiat, hnbf⟩ :=
      sessionClaims_lookup ⟨1, "a@b.c", "", "", ""⟩ (2 ^ 53 - 3599)
    have hw : wire (GoVal.int64 (2 ^ 53 - 3599 + 60 * 60)) = JVal.num (((2 ^ 53 : Int)) : ℚ) := by
      have e1 : ((2 : Int) ^ 53 - 3599 + 60 * 60) = 9007199254740993 := by norm_num
      have e2 : (9007199254740993 : Int).natAbs = 2 ^ 53 + 1 := by decide
      have e3 : toFloat64 (2 ^ 53 + 1) = 2 ^ 53 := by decide
      rw [e1]
      simp only [wire, e2, e3]
      norm_num
    have hv := MapClaims_Valid_exp jc (2 ^ 53) (2 ^ 53 - 3599 + 3600)
      (by rw [hjc, hexp]; simp only [Option.map_some']; rw [hw])
      (by rw [hjc, hiat]; rfl) (by rw [hjc, hnbf]; rfl) (by norm_num) (by norm_num)
    rw [hv, if_neg (by norm_num)]

/-- C1 (amended): for every lawful library, configured secret, user with a
non-empty email and id at most `2^53`, pet with id at most `2^53`, issuance
time `t` with `|t + 3600| ≤ 2^53` and verification time `now ≤ t + 3600`:
`generateJWT` returns a token that `extractTokenFromJWT` accepts and from which
`readJWTClaims` reads the identity `user.ID`; likewise `generateReportJWT`,
`readReportJWTClaims` and `pet.ID`. -/
theorem issue_verify_read_round_trip (lib : Lib) (hl : lib.Lawful) (secret : String)
    (hs : secret ≠ "") (user : User) (pet : Pet) (t now : Int) (hemail : user.Email ≠ "")
    (huid : user.ID ≤ 2 ^ 53) (hpid : pet.ID ≤ 2 ^ 53)
    (hrange : (t + 60 * 60).natAbs ≤ 2 ^ 53) (hnow : now ≤ t + 60 * 60) :
    (∃ (tok : String) (token : Token),
      generateJWT lib (some secret) t user = Run.done (Except.ok tok)
      ∧ extractTokenFromJWT lib (some secret) now tok = Run.done (Except.ok token)
      ∧ readJWTClaims token = Run.done (Except.ok ⟨(user.ID : ℚ)⟩))
    ∧ (∃ (tok : String) (token : Token),
      generateReportJWT lib (some secret) t pet = Run.done (Except.ok tok)
      ∧ extractTokenFromJWT lib (some secret) now tok = Run.done (Except.ok token)
      ∧ readReportJWTClaims token = Run.done (Except.ok ⟨(pet.ID : ℚ)⟩)) := by
  constructor
  · obtain ⟨tok, token, h1, h2, h3⟩ :=
      session_round_trip lib hl secret hs user t now hemail hrange hnow
    rw [toFloat64_exact _ huid] at h3
    exact ⟨tok, token, h1, h2, h3⟩
  · obtain ⟨tok, token, h1, h2, h3⟩ := report_round_trip lib hl secret hs pet t now hrange hnow
    rw [toFloat64_exact _ hpid] at h3
    exact ⟨tok, token, h1, h2, h3⟩

/-- C1 (witness): the round trip of user 7 and pet 42 under the reference
library, issued at time 1000 and verified at time 2000. -/
theorem issue_verify_read_round_trip_witness :
    (∃ (tok : String) (token : Token),
      generateJWT refLib (some "k") 1000 ⟨7, "a@b.c", "", "", ""⟩ = Run.done (Except.ok tok)
      ∧ extractTokenFromJWT refLib (some "k") 2000 tok = Run.done (Except.ok token)
      ∧ readJWTClaims token = Run.done (Except.ok ⟨((7 : Nat) : ℚ)⟩))
    ∧ (∃ (tok : String) (token : Token),
      generateReportJWT refLib (some "k") 1000 ⟨42, "", "", "", "", "abc", 0, 0, false⟩
        = Run.done (Except.ok tok)
      ∧ extractTokenFromJWT refLib (some "k") 2000 tok = Run.done (Except.ok token)
      ∧ readReportJWTClaims token = Run.done (Except.ok ⟨((42 : Nat) : ℚ)⟩)) :=
  issue_verify_read_round_trip refLib refLib_lawful "k" (by decide)
    ⟨7, "a@b.c", "", "", ""⟩ ⟨42, "", "", "", "", "abc", 0, 0, false⟩ 1000 2000
    (by decide) (by decide) (by decide) (by decide) (by decide)

/-! ## C2: algorithm pinning -/

theorem tokenAlg_signed (lib : Lib) (hl : lib.Lawful) (h : Hash)
    (header claims : List (String × GoVal)) (key : Bytes) (a : String)
    (ha : header.lookup "alg" = some (GoVal.str a)) :
    tokenAlg lib (signedToken lib h header claims key) = some a := by
  obtain ⟨jh, hjh, hjhk⟩ := hl.unmarshal header
  have halg : jh.at "alg" = JVal.str a := by
    unfold JMap.at
    rw [hjhk "alg", ha]
    rfl
  unfold tokenAlg
  rw [signedToken_split lib hl]
  simp only [hl.segment, hjh, halg]

theorem tokenClaims_signed (lib : Lib) (hl : lib.Lawful) (h : Hash)
    (header claims : List (String × GoVal)) (key : Bytes) :
    ∃ jc : JMap, tokenClaims lib (signedToken lib h header claims key) = some jc
      ∧ ∀ k : String, jc.lookup k = (claims.lookup k).map wire := by
  obtain ⟨jc, hjc, hjck⟩ := hl.decode claims
  refine ⟨jc, ?_, hjck⟩
  unfold tokenClaims
  rw [signedToken_split lib hl]
  simp only [hl.segment, hjc]

theorem tokenAlg_some (lib : Lib) (tok a : String) (halg : tokenAlg lib tok = some a) :
    ∃ (p0 p1 p2 : String) (hb : Bytes) (header : JMap),
      strings_Split tok "." = [p0, p1, p2] ∧ lib.DecodeSegment p0 = Except.ok hb
      ∧ lib.Unmarshal hb = Except.ok header ∧ header.at "alg" = JVal.str a := by
  unfold tokenAlg at halg
  split at halg
  · rename_i p0 p1 p2 hsplit
    split at halg
    · cases halg
    · rename_i hb hhb
      split at halg
      · cases halg
      · rename_i header hheader
        split at halg
        · rename_i m hm
          cases halg
          exact ⟨p0, p1, p2, hb, header, hsplit, hhb, hheader, hm⟩
        · cases halg
  · cases halg

/-- C2: for every token string whose header names a signing method `a` that
is not of the HMAC family, `extractTokenFromJWT` returns an error and no
token, whatever the other segments are, and the same error whatever
`JWT_SECRET_KEY` is, also when it is unset: `getJWTSecret` is not called. -/
theorem non_hmac_algorithm_rejected (lib : Lib) (now : Int) (tok a : String)
    (halg : tokenAlg lib tok = some a)
    (hfam : ∀ (name : String) (h : Hash), GetSigningMethod a ≠ some (SigningMethod.HMAC name h)) :
    ∃ e : String, ∀ env : Option String,
      extractTokenFromJWT lib env now tok = Run.done (Except.error e) := by
  obtain ⟨p0, p1, p2, hb, header, hsplit, hhb, hheader, hm⟩ := tokenAlg_some lib tok a halg
  unfold extractTokenFromJWT jwt_Parse ParseUnverified
  rw [hsplit]
  simp only [hhb, hheader, hm]
  cases hd1 : lib.DecodeSegment p1 with
  | error e => exact ⟨e, fun _ => rfl⟩
  | ok cb =>
    dsimp only
    cases hd2 : lib.Decode cb with
    | error e => exact ⟨e, fun _ => rfl⟩
    | ok claims =>
      dsimp only
      cases hg : GetSigningMethod a with
      | none => exact ⟨_, fun _ => rfl⟩
      | some method =>
        cases method with
        | HMAC name h => exact absurd hg (hfam name h)
        | other name => exact ⟨_, fun _ => rfl⟩

/-- C2 (witness): a token whose header names `RS256`, under the reference
library. -/
theorem non_hmac_algorithm_rejected_witness :
    ∃ e : String, ∀ env : Option String,
      extractTokenFromJWT refLib env 0
        (signedToken refLib Hash.SHA256 [("typ", GoVal.str "JWT"), ("alg", GoVal.str "RS256")]
          [("user_id", GoVal.uint 1)] [107]) = Run.done (Except.error e) :=
  non_hmac_algorithm_rejected refLib 0 _ "RS256"
    (tokenAlg_signed refLib refLib_lawful Hash.SHA256 _ _ _ "RS256" rfl)
    (by
      have hg : GetSigningMethod "RS256" = some (SigningMethod.other "RS256") := by decide
      intro name h hc
      rw [hg] at hc
      cases hc)

/-! ## C3: a token signed with another secret -/

theorem hmacBlock_zero_padded (lib : Lib) (h : Hash) (key : Bytes) (hk : key.length < h.blockSize) :
    hmacBlock lib h (key ++ [0]) = hmacBlock lib h key := by
  unfold hmacBlock
  have h1 : ¬ (key ++ [0]).length > h.blockSize := by simp; omega
  have h2 : ¬ key.length > h.blockSize := by omega
  simp only [h1, h2, if_false]
  have h3 : h.blockSize - key.length = (h.blockSize - (key ++ [0]).length) + 1 := by
    simp; omega
  rw [h3, List.replicate_succ]
  simp

theorem hmacSum_zero_padded (lib : Lib) (h : Hash) (key msg : Bytes) (hk : key.length < h.blockSize) :
    hmacSum lib h (key ++ [0]) msg = hmacSum lib h key msg := by
  unfold hmacSum
  rw [hmacBlock_zero_padded lib h key hk]

/-- C3 (counterexample): `getJWTSecret` returns the one byte of `k`; the
token signed with the two bytes of `k` followed by a zero byte, a different
secret, is accepted by `extractTokenFromJWT` (`hmac.New` pads either key with
zero bytes to the same block). -/
theorem zero_padded_secret_accepted :
    getJWTSecret (some "k") = Run.done [107] ∧ ([107, 0] : Bytes) ≠ [107]
    ∧ ∃ (tok : String) (token : Token),
        SignedString refLib SigningMethodHS256 (jwt_New SigningMethodHS256).1
            (sessionClaims ⟨1, "a@b.c", "", "", ""⟩ 0) [107, 0] = Except.ok tok
        ∧ extractTokenFromJWT refLib (some "k") 0 tok = Run.done (Except.ok token) := by
  have hk : bytesOf "k" = [107] := by decide
  refine ⟨by rw [getJWTSecret_set "k" (by decide), hk], by decide, ?_⟩
  obtain ⟨_, _, hexp, _, hiat, hnbf⟩ := sessionClaims_lookup ⟨1, "a@b.c", "", "", ""⟩ 0
  obtain ⟨token, jc, hx, _, _, _⟩ := issued_accepted refLib refLib_lawful "k" (by decide)
    (sessionClaims ⟨1, "a@b.c", "", "", ""⟩ 0) [107, 0] (0 + 60 * 60) 0
    (by rw [hk]; exact hmacSum_zero_padded refLib Hash.SHA256 [107] _ (by decide))
    hexp hiat hnbf (by decide) (Or.inr (by decide))
  exact ⟨_, token, SignedString_HMAC refLib "HS256" Hash.SHA256 _ _ _, hx⟩

/-- C3 (amended): for every lawful library and configured secret, every
token string whose header names a method of the HMAC family (HS256, HS384,
HS512) and whose third segment is the signature that method makes of the first
two segments under a key whose MAC of them differs from the MAC under the
secret `getJWTSecret` returns, fails verification: `extractTokenFromJWT`
returns an error, and the error is `signature is invalid` whenever the claims
segment decodes.  The header and the claims are arbitrary. -/
theorem other_secret_rejected (lib : Lib) (hl : lib.Lawful) (secret : String) (hs : secret ≠ "")
    (now : Int) (tok p0 p1 p2 name : String) (h : Hash) (key : Bytes)
    (hsplit : strings_Split tok "." = [p0, p1, p2])
    (halg : tokenAlg lib tok = some name)
    (hfam : hmacMethods.lookup name = some h)
    (hsigned : (SigningMethod.HMAC name h).Sign lib (p0 ++ "." ++ p1) key = Except.ok p2)
    (hmac : hmacSum lib h key (bytesOf (p0 ++ "." ++ p1))
      ≠ hmacSum lib h (bytesOf secret) (bytesOf (p0 ++ "." ++ p1))) :
    ∃ e : String,
      extractTokenFromJWT lib (some secret) now tok = Run.done (Except.error e)
      ∧ (tokenClaims lib tok ≠ none → e = "signature is invalid") := by
  obtain ⟨q0, q1, q2, hb, header, hsplit2, hhb, hheader, hm⟩ := tokenAlg_some lib tok name halg
  rw [hsplit] at hsplit2
  simp only [List.cons.injEq, and_true] at hsplit2
  obtain ⟨e0, e1, e2⟩ := hsplit2
  subst e0 e1 e2
  have hp2 : p2 = lib.EncodeSegment (hmacSum lib h key (bytesOf (p0 ++ "." ++ p1))) := by
    simp only [SigningMethod.Sign, Except.ok.injEq] at hsigned
    exact hsigned.symm
  have hget : GetSigningMethod name = some (SigningMethod.HMAC name h) := by
    simp only [GetSigningMethod, hfam]
  unfold extractTokenFromJWT jwt_Parse ParseUnverified tokenClaims
  rw [hsplit]
  simp only [hhb, hheader, hm]
  cases hd1 : lib.DecodeSegment p1 with
  | error e => exact ⟨e, rfl, fun hne => absurd rfl hne⟩
  | ok cb =>
    dsimp only
    cases hd2 : lib.Decode cb with
    | error e => exact ⟨e, rfl, fun hne => absurd rfl hne⟩
    | ok claims =>
      refine ⟨"signature is invalid", ?_, fun _ => rfl⟩
      simp only [hget, keyFunc, getJWTSecret_set secret hs, SigningMethod.Verify, hp2,
        hl.segment, hmac, if_false]

/-- C3 (witness): under the reference library, the HS512 token signed with the
byte 108 is rejected when the secret is `k` (the byte 107). -/
theorem other_secret_rejected_witness :
    ∃ e : String,
      extractTokenFromJWT refLib (some "k") 0
          (signedToken refLib Hash.SHA512 [("typ", GoVal.str "JWT"), ("alg", GoVal.str "HS512")]
            (sessionClaims ⟨1, "a@b.c", "", "", ""⟩ 0) [108])
        = Run.done (Except.error e)
      ∧ (tokenClaims refLib
            (signedToken refLib Hash.SHA512
              [("typ", GoVal.str "JWT"), ("alg", GoVal.str "HS512")]
              (sessionClaims ⟨1, "a@b.c", "", "", ""⟩ 0) [108]) ≠ none →
          e = "signature is invalid") :=
  other_secret_rejected refLib refLib_lawful "k" (by decide) 0 _ _ _ _ "HS512" Hash.SHA512 [108]
    (signedToken_split refLib refLib_lawful Hash.SHA512 _ _ _)
    (tokenAlg_signed refLib refLib_lawful Hash.SHA512 _ _ _ "HS512" rfl)
    (by decide) rfl
    (by
      have hk : bytesOf "k" = [107] := by decide
      rw [hk]
      intro h
      have h2 := congrArg List.head? h
      simp [hmacSum, hmacBlock, refLib, Hash.blockSize] at h2)

/-! ## C4: expiry -/

/-- C4 (counterexample): the token with `exp = 0`, signed with the current
secret, is accepted at time 1: `verifyExp` reads an `exp` of 0 as unset. -/
theorem epoch_exp_accepted :
    ∃ (token : Token) (jc : JMap),
      extractTokenFromJWT refLib (some "k") 1
          (signedToken refLib Hash.SHA256 (jwt_New SigningMethodHS256).1
            [("exp", GoVal.int64 0)] (bytesOf "k"))
        = Run.done (Except.ok token)
      ∧ token.Claims = Claims.MapClaims jc
      ∧ jc.lookup "exp" = some (JVal.num 0)
      ∧ (0 : ℚ) < ((1 : Int) : ℚ) := by
  obtain ⟨token, jc, hx, _, hc, hjc⟩ := issued_accepted refLib refLib_lawful "k" (by decide)
    [("exp", GoVal.int64 0)] (bytesOf "k") 0 1 rfl rfl rfl rfl (by decide) (Or.inl rfl)
  refine ⟨token, jc, hx, hc, ?_, by norm_num⟩
  rw [hjc "exp"]
  have : wire (GoVal.int64 0) = JVal.num ((0 : Int) : ℚ) := wire_int64_exact 0 (by decide)
  simp [List.lookup, this]

/-- C4 (amended): with the secret configured, for every token string whose
`exp` claim is a number `x` that is earlier than the verification time `now`
(a Unix time of 0 or more) and whose integer part `int64(x)` is not 0,
`extractTokenFromJWT` returns an error, whatever the signature is. -/
theorem expired_token_rejected (lib : Lib) (secret : String) (hs : secret ≠ "") (now : Int)
    (tok : String) (jc : JMap) (x : ℚ) (hc : tokenClaims lib tok = some jc)
    (hexp : jc.lookup "exp" = some (JVal.num x)) (hlt : x < now) (hnow : 0 ≤ now)
    (hz : int64OfFloat x ≠ 0) :
    ∃ e : String, extractTokenFromJWT lib (some secret) now tok = Run.done (Except.error e) := by
  obtain ⟨msg, hmsg⟩ := MapClaims_Valid_expired jc x now hexp hz (int64OfFloat_lt x now hlt hnow hz)
  unfold extractTokenFromJWT jwt_Parse
  cases hp : ParseUnverified lib tok with
  | error e => exact ⟨e, rfl⟩
  | ok res =>
    obtain ⟨token, p0, p1, p2⟩ := res
    have hcl := ParseUnverified_claims lib tok token p0 p1 p2 jc hp hc
    dsimp only
    cases hm : token.Method with
    | other name => exact ⟨"there was an error in parsing", by simp only [keyFunc, hm]⟩
    | HMAC name h =>
      simp only [keyFunc, hm, getJWTSecret_set secret hs, hcl, Claims.Valid, hmsg]
      cases hv : SigningMethod.Verify lib (SigningMethod.HMAC name h) (p0 ++ "." ++ p1) p2
          (bytesOf secret) with
      | some e => exact ⟨e, rfl⟩
      | none => exact ⟨msg, rfl⟩

/-- C4 (witness): under the reference library, the token with `exp = 5`
signed with the current secret is rejected at time 10. -/
theorem expired_token_rejected_witness :
    ∃ e : String,
      extractTokenFromJWT refLib (some "k") 10
          (signedToken refLib Hash.SHA256 (jwt_New SigningMethodHS256).1
            [("exp", GoVal.int64 5)] (bytesOf "k"))
        = Run.done (Except.error e) := by
  obtain ⟨jc, hc, hjc⟩ := tokenClaims_signed refLib refLib_lawful Hash.SHA256
    (jwt_New SigningMethodHS256).1 [("exp", GoVal.int64 5)] (bytesOf "k")
  have hw : wire (GoVal.int64 5) = JVal.num ((5 : Int) : ℚ) := wire_int64_exact 5 (by decide)
  have hexp : jc.lookup "exp" = some (JVal.num ((5 : Int) : ℚ)) := by
    rw [hjc "exp"]
    simp [List.lookup, hw]
  exact expired_token_rejected refLib "k" (by decide) 10 _ jc ((5 : Int) : ℚ) hc hexp
    (by norm_num) (by decide)
    (by rw [int64OfFloat_intCast 5 (by decide) (by decide)]; decide)

/-! ## C5: scope binding in `CreateReport` -/

theorem signedToken_no_blank (lib : Lib) (hl : lib.Lawful) (h : Hash)
    (header claims : List (String × GoVal)) (key : Bytes) :
    ' ' ∉ (signedToken lib h header claims key).data := by
  unfold signedToken SigningString
  simp only [String.data_append, List.mem_append, not_or]
  exact ⟨⟨⟨⟨no_blank_segment lib hl _, by decide⟩, no_blank_segment lib hl _⟩, by decide⟩,
    no_blank_segment lib hl _⟩

theorem signedToken_ne_empty (lib : Lib) (h : Hash) (header claims : List (String × GoVal))
    (key : Bytes) : signedToken lib h header claims key ≠ "" := by
  intro he
  have h1 := congrArg String.data he
  unfold signedToken SigningString at h1
  simp [String.data_append] at h1

theorem bearer_signed (lib : Lib) (hl : lib.Lawful) (h : Hash)
    (header claims : List (String × GoVal)) (key : Bytes) :
    (strings_Split ("Bearer " ++ signedToken lib h header claims key) "Bearer ")[1]?
      = some (signedToken lib h header claims key) := by
  rw [strings_Split_bearer _ (no_bearer_of_no_blank _ (signedToken_no_blank lib hl h _ _ _))]
  rfl

theorem refReportToken_accepted (now : Int) (hnow : now ≤ 4600) :
    ∃ token : Token,
      extractTokenFromJWT refLib (some "k") now refReportToken = Run.done (Except.ok token)
      ∧ token.okAndValid = true
      ∧ readReportJWTClaims token = Run.done (Except.ok ⟨42⟩)
      ∧ readJWTClaims token = Run.done (Except.error "Missing required claims") := by
  obtain ⟨hu, hexp, huid, _, hiat, hnbf⟩ := reportClaims_lookup refPet 1000
  obtain ⟨token, jc, hx, hv, hc, hjc⟩ := issued_accepted refLib refLib_lawful "k" (by decide)
    (reportClaims refPet 1000) (bytesOf "k") (1000 + 60 * 60) now rfl hexp hiat hnbf (by decide)
    (Or.inr (by omega))
  refine ⟨token, hx, ?_, ?_, ?_⟩
  · simp [Token.okAndValid, hc, hv]
  · have h42 : wire (GoVal.uint refPet.ID) = JVal.num 42 := by
      rw [wire_uint_exact _ (by decide)]
      simp [refPet]
    exact readReportJWTClaims_num token jc 42 hv hc (by rw [hjc, hu]; simp [h42])
  · unfold readJWTClaims
    rw [hc]
    simp [hv, JMap.at, hjc, huid]

/-- C5 (counterexample): the request bears the verified report token of pet
42, whose slug is `abc`, and names the slug `xyz`, but its body is empty:
`CreateReport` answers 400 with the text of the body error, not with the
field error on `jwt`. -/
theorem scope_mismatch_after_body_check :
    (∃ token : Token,
      extractTokenFromJWT refLib (some "k") 2000 refReportToken = Run.done (Except.ok token)
      ∧ readReportJWTClaims token = Run.done (Except.ok ⟨42⟩))
    ∧ (refDB.findPet 42).Slug = "abc"
    ∧ CreateReport refLib (some "k") 2000
        ⟨some ("Bearer " ++ refReportToken), "xyz", "", some "rid"⟩ refDB
      = (Run.done ⟨Data.none, ErrorData.text "EOF", 400⟩, refDB)
    ∧ (⟨Data.none, ErrorData.text "EOF", 400⟩ : HTTPResponse) ≠ invalidTokenResponse := by
  obtain ⟨token, hx, _, hr, _⟩ := refReportToken_accepted 2000 (by decide)
  refine ⟨⟨token, hx, hr⟩, ?_, rfl, by decide⟩
  simp [DB.findPet, refDB, refPet]

/-- C5 (amended): for every request whose body decodes as a report and whose
bearer token is a verified report token carrying `pet_id` `p`, and every path
slug that differs from the slug of the pet stored under `p`, `CreateReport`
responds with status 400 and the generic field error on `jwt`, and leaves the
store as it was: no report is created. -/
theorem report_scope_binding (lib : Lib) (env : Option String) (now : Int) (r : Request)
    (db : DB) (report : Report) (reqToken : String) (token : Token) (p : ℚ)
    (hbody : lib.decodeReport r.body = Except.ok report)
    (hbearer : (strings_Split r.headerGet "Bearer ")[1]? = some reqToken)
    (hne : reqToken ≠ "")
    (hverified : extractTokenFromJWT lib env now reqToken = Run.done (Except.ok token))
    (hclaims : readReportJWTClaims token = Run.done (Except.ok ⟨p⟩))
    (hslug : (db.findPet p).Slug ≠ r.slug) :
    CreateReport lib env now r db
      = (Run.done ⟨Data.none,
          ErrorData.fields [⟨"jwt", "Jeton d'authentification invalide"⟩], 400⟩, db) := by
  unfold CreateReport
  simp only [hbody, hbearer, hne, if_false, hverified, hclaims, hslug, ne_eq, not_false_eq_true,
    if_true, invalidTokenResponse]

/-- C5 (witness): the report token of pet 42, whose slug is `abc`, presented
on the path slug `xyz`. -/
theorem report_scope_binding_witness :
    CreateReport refLib (some "k") 2000
        ⟨some ("Bearer " ++ refReportToken), "xyz", "body", some "rid"⟩ refDB
      = (Run.done ⟨Data.none,
          ErrorData.fields [⟨"jwt", "Jeton d'authentification invalide"⟩], 400⟩, refDB) := by
  obtain ⟨token, hx, _, hr, _⟩ := refReportToken_accepted 2000 (by decide)
  exact report_scope_binding refLib (some "k") 2000 _ refDB ⟨0, "body", "", "", false, "", 0⟩
    refReportToken token 42 rfl
    (bearer_signed refLib refLib_lawful Hash.SHA256 _ _ _)
    (signedToken_ne_empty refLib Hash.SHA256 _ _ _) hx hr
    (by simp [DB.findPet, refDB, refPet])

/-! ## C6: the two token variants -/

theorem session_token_read_as_report (lib : Lib) (hl : lib.Lawful) (secret : String)
    (hs : secret ≠ "") (user : User) (t now : Int)
    (hrange : (t + 60 * 60).natAbs ≤ 2 ^ 53) (hnow : now ≤ t + 60 * 60) :
    ∃ token : Token,
      extractTokenFromJWT lib (some secret) now
          (signedToken lib Hash.SHA256 (jwt_New SigningMethodHS256).1 (sessionClaims user t)
            (bytesOf secret))
        = Run.done (Except.ok token)
      ∧ token.okAndValid = true
      ∧ readReportJWTClaims token = Run.done (Except.error "Missing required claims") := by
  obtain ⟨_, _, hexp, hpid, hiat, hnbf⟩ := sessionClaims_lookup user t
  obtain ⟨token, jc, hx, hv, hc, hjc⟩ := issued_accepted lib hl secret hs (sessionClaims user t)
    (bytesOf secret) (t + 60 * 60) now rfl hexp hiat hnbf hrange (Or.inr hnow)
  refine ⟨token, hx, by simp [Token.okAndValid, hc, hv], ?_⟩
  unfold readReportJWTClaims
  rw [hc]
  simp [hv, JMap.at, hjc, hpid]

theorem report_token_read_as_session (lib : Lib) (hl : lib.Lawful) (secret : String)
    (hs : secret ≠ "") (pet : Pet) (t now : Int)
    (hrange : (t + 60 * 60).natAbs ≤ 2 ^ 53) (hnow : now ≤ t + 60 * 60) :
    ∃ token : Token,
      extractTokenFromJWT lib (some secret) now
          (signedToken lib Hash.SHA256 (jwt_New SigningMethodHS256).1 (reportClaims pet t)
            (bytesOf secret))
        = Run.done (Except.ok token)
      ∧ token.okAndValid = true
      ∧ readJWTClaims token = Run.done (Except.error "Missing required claims") := by
  obtain ⟨_, hexp, huid, _, hiat, hnbf⟩ := reportClaims_lookup pet t
  obtain ⟨token, jc, hx, hv, hc, hjc⟩ := issued_accepted lib hl secret hs (reportClaims pet t)
    (bytesOf secret) (t + 60 * 60) now rfl hexp hiat hnbf hrange (Or.inr hnow)
  refine ⟨token, hx, by simp [Token.okAndValid, hc, hv], ?_⟩
  unfold readJWTClaims
  rw [hc]
  simp [hv, JMap.at, hjc, huid]

/-- The half of C6 that holds: `CreateReport` bearing a token issued by
`generateJWT` creates no report; when the body decodes, the handler panics on
the nil claims `readReportJWTClaims` returns. -/
theorem session_token_creates_no_report (lib : Lib) (hl : lib.Lawful) (secret : String)
    (hs : secret ≠ "") (user : User) (t now : Int) (tok slug body : String)
    (rid : Option String) (db : DB)
    (hrange : (t + 60 * 60).natAbs ≤ 2 ^ 53) (hnow : now ≤ t + 60 * 60)
    (hissued : generateJWT lib (some secret) t user = Run.done (Except.ok tok)) :
    (CreateReport lib (some secret) now ⟨some ("Bearer " ++ tok), slug, body, rid⟩ db).2 = db
    ∧ ∀ report : Report, lib.decodeReport body = Except.ok report →
        CreateReport lib (some secret) now ⟨some ("Bearer " ++ tok), slug, body, rid⟩ db
          = (Run.panic, db) := by
  have htok : tok = signedToken lib Hash.SHA256 (jwt_New SigningMethodHS256).1
      (sessionClaims user t) (bytesOf secret) := by
    rw [generateJWT_set lib secret hs t user] at hissued
    exact (Except.ok.inj (Run.done.inj hissued)).symm
  subst htok
  obtain ⟨token, hx, _, hr⟩ := session_token_read_as_report lib hl secret hs user t now hrange hnow
  have hpanic : ∀ report : Report, lib.decodeReport body = Except.ok report →
      CreateReport lib (some secret) now
        ⟨some ("Bearer " ++ signedToken lib Hash.SHA256 (jwt_New SigningMethodHS256).1
          (sessionClaims user t) (bytesOf secret)), slug, body, rid⟩ db = (Run.panic, db) := by
    intro report hbody
    unfold CreateReport
    simp only [hbody, Request.headerGet, Option.getD_some,
      bearer_signed lib hl Hash.SHA256 _ _ _, signedToken_ne_empty lib Hash.SHA256 _ _ _,
      if_false, hx, hr]
  refine ⟨?_, hpanic⟩
  cases hbody : lib.decodeReport body with
  | error e =>
    unfold CreateReport
    simp only [hbody]
  | ok report => rw [hpanic report hbody]

/-- C6 (the code at the failing input): for every lawful library, configured
secret and pet, the request that bears the token `generateReportJWT` issued
for the pet, within its lifetime, passes the gate `isAuthorized` on the
`DELETE /pets/slug` route: `DeletePet` answers 200 and soft-deletes the pets
with that slug. -/
theorem report_token_deletes_pet (lib : Lib) (hl : lib.Lawful) (secret : String)
    (hs : secret ≠ "") (pet : Pet) (t now : Int) (tok slug body : String)
    (rid : Option String) (db : DB)
    (hrange : (t + 60 * 60).natAbs ≤ 2 ^ 53) (hnow : now ≤ t + 60 * 60)
    (hissued : generateReportJWT lib (some secret) t pet = Run.done (Except.ok tok))
    (huuid : lib.uuidParse slug = true) :
    protectedRoute lib (some secret) now (DeletePet lib)
        ⟨some ("Bearer " ++ tok), slug, body, rid⟩ db
      = (Run.done ⟨Data.text "L'enregistrement a bien été supprimé", ErrorData.none, 200⟩,
          db.deletePetsBySlug slug) := by
  have htok : tok = signedToken lib Hash.SHA256 (jwt_New SigningMethodHS256).1
      (reportClaims pet t) (bytesOf secret) := by
    rw [generateReportJWT_set lib secret hs t pet] at hissued
    exact (Except.ok.inj (Run.done.inj hissued)).symm
  subst htok
  obtain ⟨token, hx, hok, _⟩ := report_token_read_as_session lib hl secret hs pet t now hrange hnow
  unfold protectedRoute isAuthorized
  simp only [Request.headerGet, Option.getD_some, bearer_signed lib hl Hash.SHA256 _ _ _,
    signedToken_ne_empty lib Hash.SHA256 _ _ _, if_false, hx, hok, if_true, DeletePet, huuid,
    Bool.not_true, Bool.false_eq_true]

/-- C6 (witness): the report token of pet 42 deletes the pet through the
protected route. -/
theorem report_token_deletes_pet_witness :
    protectedRoute refLib (some "k") 2000 (DeletePet refLib)
        ⟨some ("Bearer " ++ refReportToken), refUuid, "", some "rid"⟩ refUuidDB
      = (Run.done ⟨Data.text "L'enregistrement a bien été supprimé", ErrorData.none, 200⟩,
          ⟨[{ refPet with Slug := refUuid, Deleted := true }], [], 0⟩) :=
  report_token_deletes_pet refLib refLib_lawful "k" (by decide) refPet 1000 2000 refReportToken
    refUuid "" (some "rid") refUuidDB (by decide) (by decide)
    (generateReportJWT_set refLib "k" (by decide) 1000 refPet) (by decide)

/-! ## C7, C8, C9: the gate -/

/-- What the gate does, case by case: it panics when the header has no
`Bearer ` separator, answers 401 to an empty token, answers 400 to a token
that does not decode or is not valid, and otherwise calls the handler on the
request it received. -/
theorem isAuthorized_cases {α : Type} (lib : Lib) (env : Option String) (now : Int)
    (handler : Request → α) (r : Request) :
    ((strings_Split r.headerGet "Bearer ")[1]? = none
        ∧ isAuthorized lib env now handler r = Served.panicked)
    ∨ ((strings_Split r.headerGet "Bearer ")[1]? = some ""
        ∧ isAuthorized lib env now handler r = Served.replied missingTokenResponse)
    ∨ (∃ reqToken : String, (strings_Split r.headerGet "Bearer ")[1]? = some reqToken
        ∧ reqToken ≠ ""
        ∧ ((extractTokenFromJWT lib env now reqToken = Run.panic
              ∧ isAuthorized lib env now handler r = Served.panicked)
          ∨ (extractTokenFromJWT lib env now reqToken = Run.fatal
              ∧ isAuthorized lib env now handler r = Served.exited)
          ∨ (∃ e : String, extractTokenFromJWT lib env now reqToken = Run.done (Except.error e)
              ∧ isAuthorized lib env now handler r = Served.replied (decodeErrorResponse e))
          ∨ (∃ token : Token,
              extractTokenFromJWT lib env now reqToken = Run.done (Except.ok token)
              ∧ token.okAndValid = false
              ∧ isAuthorized lib env now handler r = Served.replied invalidTokenResponse)
          ∨ (∃ token : Token,
              extractTokenFromJWT lib env now reqToken = Run.done (Except.ok token)
              ∧ token.okAndValid = true
              ∧ isAuthorized lib env now handler r = Served.forwarded (handler r)))) := by
  cases hsplit : (strings_Split r.headerGet "Bearer ")[1]? with
  | none => exact Or.inl ⟨rfl, by simp only [isAuthorized, hsplit]⟩
  | some reqToken =>
    by_cases hempty : reqToken = ""
    · subst hempty
      exact Or.inr (Or.inl ⟨rfl, by simp only [isAuthorized, hsplit, if_true]⟩)
    · refine Or.inr (Or.inr ⟨reqToken, rfl, hempty, ?_⟩)
      cases hx : extractTokenFromJWT lib env now reqToken with
      | panic =>
        exact Or.inl ⟨rfl, by simp only [isAuthorized, hsplit, hempty, if_false, hx]⟩
      | fatal =>
        exact Or.inr (Or.inl ⟨rfl, by simp only [isAuthorized, hsplit, hempty, if_false, hx]⟩)
      | done res =>
        cases res with
        | error e =>
          exact Or.inr (Or.inr (Or.inl
            ⟨e, rfl, by simp only [isAuthorized, hsplit, hempty, if_false, hx]⟩))
        | ok token =>
          cases hok : token.okAndValid with
          | false =>
            exact Or.inr (Or.inr (Or.inr (Or.inl
              ⟨token, rfl, hok, by simp [isAuthorized, hsplit, hempty, hx, hok]⟩)))
          | true =>
            exact Or.inr (Or.inr (Or.inr (Or.inr
              ⟨token, rfl, hok, by simp [isAuthorized, hsplit, hempty, hx, hok]⟩)))

/-- C7 (the code at the failing input): a request whose `Authorization` header
is `Basic dXNlcjpwYXNz` is a case in which no bearer token is extracted, and
the gate ends in none of its responses: `splitToken[1]` is out of range and
the gate panics. -/
theorem gate_panics_without_bearer {α : Type} (lib : Lib) (env : Option String) (now : Int)
    (handler : Request → α) (slug body : String) (rid : Option String) :
    strings_Split "Basic dXNlcjpwYXNz" "Bearer " = ["Basic dXNlcjpwYXNz"]
    ∧ isAuthorized lib env now handler ⟨some "Basic dXNlcjpwYXNz", slug, body, rid⟩
      = Served.panicked := by
  have h : strings_Split "Basic dXNlcjpwYXNz" "Bearer " = ["Basic dXNlcjpwYXNz"] := by decide
  refine ⟨h, ?_⟩
  simp only [isAuthorized, Request.headerGet, Option.getD_some, h]
  rfl

/-- C8 (the code at the failing input): for every request without an
`Authorization` header the gate panics: `strings.Split` of the empty header
has one part and `splitToken[1]` is out of range. -/
theorem gate_panics_without_header {α : Type} (lib : Lib) (env : Option String) (now : Int)
    (handler : Request → α) (slug body : String) (rid : Option String) :
    isAuthorized lib env now handler ⟨none, slug, body, rid⟩ = Served.panicked := by
  have h : strings_Split "" "Bearer " = [""] := by decide
  simp only [isAuthorized, Request.headerGet, Option.getD_none, h]
  rfl

/-- C9: for every header `Bearer ` followed by a non-empty string `s` that
contains no `Bearer ` and that `extractTokenFromJWT` fails to decode with
error `e`, the gate responds with status 400 and the single field error on
`jwt` with message `e`; it neither calls the handler nor panics. -/
theorem undecodable_bearer_rejected {α : Type} (lib : Lib) (env : Option String) (now : Int)
    (handler : Request → α) (r : Request) (s e : String)
    (hheader : r.Authorization = some ("Bearer " ++ s)) (hne : s ≠ "")
    (hno : ¬ "Bearer ".data <:+: s.data)
    (hfail : extractTokenFromJWT lib env now s = Run.done (Except.error e)) :
    isAuthorized lib env now handler r
      = Served.replied ⟨Data.none, ErrorData.fields [⟨"jwt", e⟩], 400⟩ := by
  have h1 : (["", s] : List String)[1]? = some s := rfl
  simp only [isAuthorized, Request.headerGet, hheader, Option.getD_some,
    strings_Split_bearer s hno, h1, hne, if_false, hfail, decodeErrorResponse]

/-- C9 (witness): the header `Bearer garbage`. -/
theorem undecodable_bearer_rejected_witness :
    isAuthorized refLib (some "k") 0 (fun r : Request => r)
        ⟨some "Bearer garbage", "abc", "", some "rid"⟩
      = Served.replied ⟨Data.none,
          ErrorData.fields [⟨"jwt", "token contains an invalid number of segments"⟩], 400⟩ :=
  undecodable_bearer_rejected refLib (some "k") 0 (fun r : Request => r)
    ⟨some "Bearer garbage", "abc", "", some "rid"⟩ "garbage"
    "token contains an invalid number of segments" (by decide) (by decide)
    (no_bearer_of_no_blank "garbage" (by decide))
    (by
      have h : strings_Split "garbage" "." = ["garbage"] := by decide
      unfold extractTokenFromJWT jwt_Parse ParseUnverified
      simp only [h])

/-! ## The claim readers on a valid token -/

/-- On every token that is marked valid and carries a claim map,
`readJWTClaims` returns the error `Missing required claims` whenever `user_id`
or `email` is absent (or null) or the empty string, and `readReportJWTClaims`
returns it whenever `pet_id` is; and an identity either reader returns without
an error holds the number under `user_id`, respectively `pet_id`. -/
theorem readers_on_valid_token (token : Token) (m : JMap) (hv : token.Valid = true)
    (hc : token.Claims = Claims.MapClaims m) :
    ((m.at "user_id" = JVal.null ∨ m.at "user_id" = JVal.str ""
        ∨ m.at "email" = JVal.null ∨ m.at "email" = JVal.str "") →
      readJWTClaims token = Run.done (Except.error "Missing required claims"))
    ∧ ((m.at "pet_id" = JVal.null ∨ m.at "pet_id" = JVal.str "") →
      readReportJWTClaims token = Run.done (Except.error "Missing required claims"))
    ∧ (∀ ident : Identity, readJWTClaims token = Run.done (Except.ok ident) →
      m.at "user_id" = JVal.num ident.id)
    ∧ (∀ ident : Identity, readReportJWTClaims token = Run.done (Except.ok ident) →
      m.at "pet_id" = JVal.num ident.id) := by
  refine ⟨?_, ?_, ?_, ?_⟩
  · intro h
    unfold readJWTClaims
    rw [hc]
    simp only [hv, if_true]
    by_cases h1 : m.at "user_id" = JVal.null ∨ m.at "user_id" = JVal.str ""
    · rw [if_pos h1]
    · rw [if_neg h1]
      have h2 : m.at "email" = JVal.null ∨ m.at "email" = JVal.str "" := by
        rcases h with h | h | h | h
        · exact absurd (Or.inl h) h1
        · exact absurd (Or.inr h) h1
        · exact Or.inl h
        · exact Or.inr h
      rw [if_pos h2]
  · intro h
    unfold readReportJWTClaims
    rw [hc]
    simp only [hv, if_true]
    rw [if_pos h]
  · intro ident h
    unfold readJWTClaims at h
    rw [hc] at h
    simp only [hv, if_true] at h
    split at h
    · cases h
    · split at h
      · cases h
      · split at h
        · rename_i x hx
          cases h
          exact hx
        · cases h
  · intro ident h
    unfold readReportJWTClaims at h
    rw [hc] at h
    simp only [hv, if_true] at h
    split at h
    · cases h
    · split at h
      · rename_i x hx
        cases h
        exact hx
      · cases h

/-! ## C11: the empty bearer token -/

/-- C11: for every `Authorization` header whose extracted token
`splitToken[1]` is empty, the gate responds with status 401 and the field
error on `jwt` that names the missing token, whatever the library, the secret
setting and the handler are: no token is decoded and the handler is not
called. -/
theorem empty_bearer_token_rejected {α : Type} (lib : Lib) (env : Option String) (now : Int)
    (handler : Request → α) (r : Request)
    (hempty : (strings_Split r.headerGet "Bearer ")[1]? = some "") :
    isAuthorized lib env now handler r
      = Served.replied ⟨Data.none,
          ErrorData.fields [⟨"jwt", "Jeton d'authentification manquant"⟩], 401⟩ := by
  simp only [isAuthorized, hempty, if_true, missingTokenResponse]

/-- C11 (witness): the header `Bearer `, with `JWT_SECRET_KEY` unset. -/
theorem empty_bearer_token_rejected_witness :
    isAuthorized refLib none 0 (fun r : Request => r) ⟨some "Bearer ", "abc", "", some "rid"⟩
      = Served.replied ⟨Data.none,
          ErrorData.fields [⟨"jwt", "Jeton d'authentification manquant"⟩], 401⟩ :=
  empty_bearer_token_rejected refLib none 0 (fun r : Request => r)
    ⟨some "Bearer ", "abc", "", some "rid"⟩ (by decide)

/-! ## C12: what is issued -/

/-- C12: with the secret configured, for every user, pet and issuance time
`t`, `generateJWT` returns the token `SignedString` makes with HS256 (header
`alg` = `HS256`, MAC with SHA-256 under the bytes of the secret) of the claim
set that is exactly `authorized: true, user_id: user.ID, email: user.Email,
exp: t + 3600`, and `generateReportJWT` the one of exactly `authorized: true,
pet_id: pet.ID, exp: t + 3600`: both expire 60 minutes after issuance. -/
theorem issued_claims (lib : Lib) (secret : String) (hs : secret ≠ "") (user : User) (pet : Pet)
    (t : Int) :
    generateJWT lib (some secret) t user
      = Run.done (SignedString lib (SigningMethod.HMAC "HS256" Hash.SHA256)
          [("typ", GoVal.str "JWT"), ("alg", GoVal.str "HS256")]
          [("authorized", GoVal.bool true), ("user_id", GoVal.uint user.ID),
            ("email", GoVal.str user.Email), ("exp", GoVal.int64 (t + 3600))] (bytesOf secret))
    ∧ generateReportJWT lib (some secret) t pet
      = Run.done (SignedString lib (SigningMethod.HMAC "HS256" Hash.SHA256)
          [("typ", GoVal.str "JWT"), ("alg", GoVal.str "HS256")]
          [("authorized", GoVal.bool true), ("pet_id", GoVal.uint pet.ID),
            ("exp", GoVal.int64 (t + 3600))] (bytesOf secret))
    ∧ (∀ (header claims : List (String × GoVal)) (key : Bytes),
        SignedString lib (SigningMethod.HMAC "HS256" Hash.SHA256) header claims key
          = Except.ok (SigningString lib header claims ++ "." ++
              lib.EncodeSegment
                (hmacSum lib Hash.SHA256 key (bytesOf (SigningString lib header claims))))) := by
  refine ⟨?_, ?_, fun _ _ _ => rfl⟩
  · simp only [generateJWT, getJWTSecret_set secret hs]
    rfl
  · simp only [generateReportJWT, getJWTSecret_set secret hs]
    rfl

/-- C12 (witness): user 7 and pet 42 at time 1000 under the secret `k`; the
tokens expire at 4600. -/
theorem issued_claims_witness :
    generateJWT refLib (some "k") 1000 ⟨7, "a@b.c", "", "", ""⟩
      = Run.done (SignedString refLib (SigningMethod.HMAC "HS256" Hash.SHA256)
          [("typ", GoVal.str "JWT"), ("alg", GoVal.str "HS256")]
          [("authorized", GoVal.bool true), ("user_id", GoVal.uint 7),
            ("email", GoVal.str "a@b.c"), ("exp", GoVal.int64 4600)] (bytesOf "k"))
    ∧ generateReportJWT refLib (some "k") 1000 refPet
      = Run.done (SignedString refLib (SigningMethod.HMAC "HS256" Hash.SHA256)
          [("typ", GoVal.str "JWT"), ("alg", GoVal.str "HS256")]
          [("authorized", GoVal.bool true), ("pet_id", GoVal.uint 42),
            ("exp", GoVal.int64 4600)] (bytesOf "k")) :=
  ⟨(issued_claims refLib "k" (by decide) ⟨7, "a@b.c", "", "", ""⟩ refPet 1000).1,
    (issued_claims refLib "k" (by decide) ⟨7, "a@b.c", "", "", ""⟩ refPet 1000).2.1⟩

/-! ## C13: the secret -/

theorem bytesOf_ne_nil (s : String) (hs : s ≠ "") : bytesOf s ≠ [] := by
  obtain ⟨cs⟩ := s
  cases cs with
  | nil => exact absurd rfl hs
  | cons c rest =>
    have hc : String.utf8EncodeChar c ≠ [] := by
      unfold String.utf8EncodeChar
      simp only
      split_ifs <;> simp
    intro h
    simp only [bytesOf, List.flatMap_cons, List.append_eq_nil, List.map_eq_nil_iff] at h
    exact hc h.1

/-- C13: when `JWT_SECRET_KEY` is a non-empty string `s`, `getJWTSecret`
returns exactly the bytes of `s`, which are not empty; when it is unset or
empty the call ends in `log.Fatal` and returns no secret, and so do
`generateJWT` and `generateReportJWT`; and every key the key function of
`extractTokenFromJWT` hands to the verifier is non-empty. -/
theorem secret_provider (lib : Lib) (s : String) (hs : s ≠ "") :
    getJWTSecret (some s) = Run.done (bytesOf s) ∧ bytesOf s ≠ []
    ∧ getJWTSecret none = Run.fatal ∧ getJWTSecret (some "") = Run.fatal
    ∧ (∀ (env : Option String) (key : Bytes), getJWTSecret env = Run.done key → key ≠ [])
    ∧ (∀ (env : Option String) (token : Token) (key : Bytes),
        keyFunc env token = Run.done (Except.ok key) → key ≠ [])
    ∧ (∀ (t : Int) (user : User) (pet : Pet),
        generateJWT lib none t user = Run.fatal ∧ generateJWT lib (some "") t user = Run.fatal
        ∧ generateReportJWT lib none t pet = Run.fatal
        ∧ generateReportJWT lib (some "") t pet = Run.fatal) := by
  have hkey : ∀ (env : Option String) (key : Bytes), getJWTSecret env = Run.done key → key ≠ [] := by
    intro env key h
    unfold getJWTSecret at h
    simp only at h
    split at h
    · rename_i hne
      cases h
      exact bytesOf_ne_nil _ hne
    · cases h
  refine ⟨getJWTSecret_set s hs, bytesOf_ne_nil s hs, rfl, rfl, hkey, ?_, fun _ _ _ => ⟨rfl, rfl, rfl, rfl⟩⟩
  intro env token key h
  unfold keyFunc at h
  split at h
  · cases hg : getJWTSecret env with
    | done k =>
      rw [hg] at h
      simp only [Run.done.injEq, Except.ok.injEq] at h
      subst h
      exact hkey env k hg
    | panic => rw [hg] at h; cases h
    | fatal => rw [hg] at h; cases h
  · cases h

/-- C13 (witness): the setting `k`. -/
theorem secret_provider_witness :
    getJWTSecret (some "k") = Run.done [107] ∧ getJWTSecret none = Run.fatal
    ∧ getJWTSecret (some "") = Run.fatal := by
  have h := secret_provider refLib "k" (by decide)
  have hk : bytesOf "k" = [107] := by decide
  rw [hk] at h
  exact ⟨h.1, h.2.2.1, h.2.2.2.1⟩

/-! ## C15: what an accepted token is -/

theorem jwt_Parse_ok (lib : Lib) (now : Int) (tok : String)
    (kf : Token → Run (Except String Bytes)) (token : Token)
    (h : jwt_Parse lib now tok kf = Run.done (Except.ok token)) :
    token.Valid = true ∧ ∃ m : JMap, token.Claims = Claims.MapClaims m := by
  unfold jwt_Parse at h
  cases hp : ParseUnverified lib tok with
  | error e => rw [hp] at h; cases h
  | ok res =>
    obtain ⟨t0, p0, p1, p2⟩ := res
    rw [hp] at h
    dsimp only at h
    have hcl : ∃ m : JMap, t0.Claims = Claims.MapClaims m := by
      unfold ParseUnverified at hp
      split at hp
      · split at hp
        · split at hp <;> cases hp
        · split at hp
          · cases hp
          · split at hp
            · cases hp
            · split at hp
              · cases hp
              · split at hp
                · split at hp
                  · cases hp
                  · cases hp
                    exact ⟨_, rfl⟩
                · cases hp
      · cases hp
    cases hk : kf t0 with
    | panic => rw [hk] at h; cases h
    | fatal => rw [hk] at h; cases h
    | done kres =>
      rw [hk] at h
      cases kres with
      | error e => cases h
      | ok key =>
        dsimp only at h
        split at h
        · cases h
        · cases h
        · cases h
          exact ⟨rfl, hcl⟩

/-- C15: whenever `extractTokenFromJWT` returns no error, the token it returns
is marked valid and carries a claim map.  Hence the condition that guards the
final `invalide` response of `isAuthorized` and the second validity check of
`CreateReport` holds for it, the gate is the gate without its last response,
and an identity a claim reader returns for it holds the number under
`user_id`, respectively `pet_id`: the readers do not take their path without
claims. -/
theorem accepted_token_is_valid (lib : Lib) (env : Option String) (now : Int) (tok : String)
    (token : Token) (h : extractTokenFromJWT lib env now tok = Run.done (Except.ok token)) :
    token.Valid = true
    ∧ (∃ m : JMap, token.Claims = Claims.MapClaims m
        ∧ (∀ ident : Identity, readJWTClaims token = Run.done (Except.ok ident) →
            m.at "user_id" = JVal.num ident.id)
        ∧ (∀ ident : Identity, readReportJWTClaims token = Run.done (Except.ok ident) →
            m.at "pet_id" = JVal.num ident.id))
    ∧ token.okAndValid = true
    ∧ (∀ (α : Type) (handler : Request → α) (r : Request),
        (strings_Split r.headerGet "Bearer ")[1]? = some tok → tok ≠ "" →
        isAuthorized lib env now handler r = Served.forwarded (handler r)) := by
  have hparse : jwt_Parse lib now tok (keyFunc env) = Run.done (Except.ok token) := by
    unfold extractTokenFromJWT at h
    split at h
    · cases h
    · rename_i parse hp
      cases h
      exact hp
    · cases h
    · cases h
  obtain ⟨hv, m, hm⟩ := jwt_Parse_ok lib now tok (keyFunc env) token hparse
  have hok : token.okAndValid = true := by simp [Token.okAndValid, hm, hv]
  refine ⟨hv, ⟨m, hm, ?_, ?_⟩, hok, ?_⟩
  · intro ident hr
    unfold readJWTClaims at hr
    rw [hm] at hr
    simp only [hv, if_true] at hr
    split at hr
    · cases hr
    · split at hr
      · cases hr
      · split at hr
        · rename_i x hx
          cases hr
          exact hx
        · cases hr
  · intro ident hr
    unfold readReportJWTClaims at hr
    rw [hm] at hr
    simp only [hv, if_true] at hr
    split at hr
    · cases hr
    · split at hr
      · rename_i x hx
        cases hr
        exact hx
      · cases hr
  · intro α handler r hsplit hne
    simp only [isAuthorized, hsplit, hne, if_false, h, hok, if_true]

/-- C15 (witness): the session token of user 1 under the reference library,
verified at time 2000. -/
theorem accepted_token_is_valid_witness :
    ∃ token : Token,
      extractTokenFromJWT refLib (some "k") 2000 refSessionToken = Run.done (Except.ok token)
      ∧ token.Valid = true ∧ token.okAndValid = true := by
  obtain ⟨_, _, hexp, _, hiat, hnbf⟩ := sessionClaims_lookup ⟨1, "a@b.c", "", "", ""⟩ 1000
  obtain ⟨token, jc, hx, _, _, _⟩ := issued_accepted refLib refLib_lawful "k" (by decide)
    (sessionClaims ⟨1, "a@b.c", "", "", ""⟩ 1000) (bytesOf "k") (1000 + 60 * 60) 2000 rfl hexp
    hiat hnbf (by decide) (Or.inr (by decide))
  exact ⟨token, hx,
    (accepted_token_is_valid refLib (some "k") 2000 refSessionToken token hx).1,
    (accepted_token_is_valid refLib (some "k") 2000 refSessionToken token hx).2.2.1⟩

/-! ## C16: `Pet.Validate` -/

/-- C16: `Pet.Validate` leaves the pet as it is; it returns the empty list
exactly when `Name`, `Breed` and `Birthdate` are non-empty and `Sexe` is
`male` or `female`; and in every case the fields of the errors it returns are
the violated ones among `name`, `breed`, `sexe`, `birthdate`, each once and
in this order, each with the message of its field. -/
theorem Validate_spec (p : Pet) :
    p.Validate.2 = p
    ∧ (p.Validate.1 = [] ↔
        p.Name ≠ "" ∧ p.Breed ≠ "" ∧ p.Birthdate ≠ "" ∧ (p.Sexe = "male" ∨ p.Sexe = "female"))
    ∧ p.Validate.1 =
        (if p.Name = "" then [(⟨"name", "Le nom est obligatoire"⟩ : FieldError)] else [])
        ++ (if p.Breed = "" then [(⟨"breed", "La race est obligatoire"⟩ : FieldError)] else [])
        ++ (if p.Sexe = "male" ∨ p.Sexe = "female" then []
            else [(⟨"sexe", "Est-ce un male ou une femelle ?"⟩ : FieldError)])
        ++ (if p.Birthdate = "" then
              [(⟨"birthdate", "La date de naissance est obligatoire"⟩ : FieldError)]
            else [])
    ∧ p.Validate.1.map FieldError.Field =
        ["name", "breed", "sexe", "birthdate"].filter (fun f =>
          (f = "name" ∧ p.Name = "") ∨ (f = "breed" ∧ p.Breed = "")
          ∨ (f = "sexe" ∧ ¬ (p.Sexe = "male" ∨ p.Sexe = "female"))
          ∨ (f = "birthdate" ∧ p.Birthdate = "")) := by
  have heq : p.Validate.1 =
      (if p.Name = "" then [(⟨"name", "Le nom est obligatoire"⟩ : FieldError)] else [])
      ++ (if p.Breed = "" then [(⟨"breed", "La race est obligatoire"⟩ : FieldError)] else [])
      ++ (if p.Sexe = "male" ∨ p.Sexe = "female" then []
          else [(⟨"sexe", "Est-ce un male ou une femelle ?"⟩ : FieldError)])
      ++ (if p.Birthdate = "" then
            [(⟨"birthdate", "La date de naissance est obligatoire"⟩ : FieldError)]
          else []) := by
    have hs : (p.Sexe ≠ "male" ∧ p.Sexe ≠ "female") ↔ ¬ (p.Sexe = "male" ∨ p.Sexe = "female") :=
      not_or.symm
    simp only [Pet.Validate, hs, ite_not]
    by_cases h1 : p.Name = "" <;> by_cases h2 : p.Breed = "" <;>
      by_cases h3 : p.Sexe = "male" ∨ p.Sexe = "female" <;> by_cases h4 : p.Birthdate = "" <;>
      simp only [h1, h2, h3, h4, if_true, if_false] <;> rfl
  refine ⟨rfl, ?_, heq, ?_⟩
  · rw [heq]
    by_cases h1 : p.Name = "" <;> by_cases h2 : p.Breed = "" <;>
      by_cases h3 : p.Sexe = "male" ∨ p.Sexe = "female" <;> by_cases h4 : p.Birthdate = "" <;>
      simp only [h1, h2, h3, h4, if_true, if_false] <;> simp [h1, h2, h4]
  · rw [heq]
    have e1 : ("breed" : String) ≠ "name" := by decide
    have e2 : ("sexe" : String) ≠ "name" := by decide
    have e3 : ("birthdate" : String) ≠ "name" := by decide
    have e4 : ("name" : String) ≠ "breed" := by decide
    have e5 : ("sexe" : String) ≠ "breed" := by decide
    have e6 : ("birthdate" : String) ≠ "breed" := by decide
    have e7 : ("name" : String) ≠ "sexe" := by decide
    have e8 : ("breed" : String) ≠ "sexe" := by decide
    have e9 : ("birthdate" : String) ≠ "sexe" := by decide
    have e10 : ("name" : String) ≠ "birthdate" := by decide
    have e11 : ("breed" : String) ≠ "birthdate" := by decide
    have e12 : ("sexe" : String) ≠ "birthdate" := by decide
    by_cases h1 : p.Name = "" <;> by_cases h2 : p.Breed = "" <;>
      by_cases h3 : p.Sexe = "male" ∨ p.Sexe = "female" <;> by_cases h4 : p.Birthdate = "" <;>
      simp only [h1, h2, h3, h4, if_true, if_false, List.filter, e1, e2, e3, e4, e5, e6, e7, e8,
        e9, e10, e11, e12, true_and, and_true, false_and, and_false, or_false, false_or, or_true,
        true_or, not_true_eq_false, not_false_eq_true, decide_True, decide_False, List.map,
        List.nil_append, List.cons_append, List.append_nil]

/-! ## C14: the pets of other owners -/

theorem firstPetOfUser_ok (db : DB) (id : ℚ) (slug : String) (pet : Pet)
    (h : db.firstPetOfUser id slug = Except.ok pet) :
    pet ∈ db.pets ∧ (pet.UserID : ℚ) = id ∧ pet.Slug = slug ∧ pet.Deleted = false := by
  unfold DB.firstPetOfUser at h
  split at h
  · rename_i found hfind
    cases h
    have hm := List.mem_of_find?_eq_some hfind
    have hp := List.find?_some hfind
    simp only [Bool.and_eq_true, Bool.not_eq_true', decide_eq_true_eq] at hp
    exact ⟨hm, hp.1.2, hp.2, hp.1.1⟩
  · cases h

theorem savePet_frame (db db1 : DB) (pet saved : Pet) (q : Nat)
    (hsave : db.savePet pet q = Except.ok (saved, db1)) (i : Nat) (p : Pet)
    (hp : db.pets[i]? = some p) (hid : p.ID ≠ pet.ID) : db1.pets[i]? = some p := by
  unfold DB.savePet at hsave
  split at hsave
  · cases hsave
  · simp only [Except.ok.injEq, Prod.mk.injEq] at hsave
    rw [← hsave.2]
    simp only [List.getElem?_map, hp, Option.map_some', hid, false_and, if_false]

/-- The half of C14 that holds: when the primary keys of the pets are
distinct, `UpdatePet` on a request whose bearer token is verified and carries
the identity `ident` leaves every pet whose `user_id` differs from `ident.id`
as it was, for every path slug. -/
theorem UpdatePet_frame (lib : Lib) (env : Option String) (now : Int) (q : Nat) (r : Request)
    (db : DB) (reqToken : String) (token : Token) (ident : Identity)
    (hsplit : (strings_Split r.headerGet "Bearer ")[1]? = some reqToken)
    (hx : extractTokenFromJWT lib env now reqToken = Run.done (Except.ok token))
    (hr : readJWTClaims token = Run.done (Except.ok ident))
    (hkey : (db.pets.map Pet.ID).Nodup) (i : Nat) (p : Pet) (hp : db.pets[i]? = some p)
    (hu : (p.UserID : ℚ) ≠ ident.id) :
    (UpdatePet lib env now q r db).2.pets[i]? = some p := by
  simp only [UpdatePet, hsplit, hx, hr]
  split
  · exact hp
  · split
    · exact hp
    · split
      · exact hp
      · split
        · exact hp
        · rename_i incoming _ _ existing hfirst
          obtain ⟨hmem, huser, _, _⟩ := firstPetOfUser_ok db ident.id r.slug existing hfirst
          split
          · exact hp
          · rename_i saved db1 hsave
            refine savePet_frame db db1 _ saved q hsave i p hp ?_
            intro hid
            have hpm : p ∈ db.pets := List.getElem?_mem hp
            have hpe : p = existing := List.inj_on_of_nodup_map hkey hpm hmem hid
            rw [hpe] at hu
            exact hu huser

/-- The other cases of `UpdatePet`: without a bearer token that is verified
and carries an identity, the store is left as it was. -/
theorem UpdatePet_without_identity (lib : Lib) (env : Option String) (now : Int) (q : Nat)
    (r : Request) (db : DB)
    (hnone : ∀ (reqToken : String) (token : Token) (ident : Identity),
      (strings_Split r.headerGet "Bearer ")[1]? = some reqToken →
      extractTokenFromJWT lib env now reqToken = Run.done (Except.ok token) →
      readJWTClaims token ≠ Run.done (Except.ok ident)) :
    (UpdatePet lib env now q r db).2 = db := by
  simp only [UpdatePet]
  cases hsplit : (strings_Split r.headerGet "Bearer ")[1]? with
  | none => rfl
  | some reqToken =>
    dsimp only
    cases hx : extractTokenFromJWT lib env now reqToken with
    | panic => rfl
    | fatal => rfl
    | done res =>
      cases res with
      | error e => rfl
      | ok token =>
        dsimp only
        cases hr : readJWTClaims token with
        | panic => rfl
        | fatal => rfl
        | done ut =>
          cases ut with
          | ok ident => exact absurd hr (hnone reqToken token ident hsplit hx)
          | error e =>
            dsimp only
            split
            · rfl
            · split
              · rfl
              · split <;> rfl

/-- C14 (the code at the failing input): for every lawful library, configured
secret and user, the request that bears the session token `generateJWT`
issued for the user, within its lifetime, on `DELETE /pets/slug` is
answered 200 by `DeletePet` behind the gate, and every pet with that slug that
is not yet soft-deleted becomes soft-deleted, whatever its `user_id` is. -/
theorem session_token_deletes_foreign_pet (lib : Lib) (hl : lib.Lawful) (secret : String)
    (hs : secret ≠ "") (user : User) (t now : Int) (tok slug body : String)
    (rid : Option String) (db : DB) (hemail : user.Email ≠ "") (huid : user.ID ≤ 2 ^ 53)
    (hrange : (t + 60 * 60).natAbs ≤ 2 ^ 53) (hnow : now ≤ t + 60 * 60)
    (hissued : generateJWT lib (some secret) t user = Run.done (Except.ok tok))
    (huuid : lib.uuidParse slug = true) :
    (∃ token : Token,
      extractTokenFromJWT lib (some secret) now tok = Run.done (Except.ok token)
      ∧ readJWTClaims token = Run.done (Except.ok ⟨(user.ID : ℚ)⟩))
    ∧ protectedRoute lib (some secret) now (DeletePet lib)
        ⟨some ("Bearer " ++ tok), slug, body, rid⟩ db
      = (Run.done ⟨Data.text "L'enregistrement a bien été supprimé", ErrorData.none, 200⟩,
          db.deletePetsBySlug slug)
    ∧ ∀ p : Pet, p ∈ db.pets → p.Slug = slug → p.Deleted = false →
        { p with Deleted := true } ∈ (db.deletePetsBySlug slug).pets := by
  obtain ⟨tok1, token, h1, h2, h3⟩ :=
    session_round_trip lib hl secret hs user t now hemail hrange hnow
  have htok1 : tok1 = tok := by
    rw [h1] at hissued
    exact Except.ok.inj (Run.done.inj hissued)
  subst htok1
  rw [toFloat64_exact _ huid] at h3
  obtain ⟨token2, hx2, hok, _⟩ :=
    session_token_read_as_report lib hl secret hs user t now hrange hnow
  have htok : tok1 = signedToken lib Hash.SHA256 (jwt_New SigningMethodHS256).1
      (sessionClaims user t) (bytesOf secret) := by
    rw [generateJWT_set lib secret hs t user] at h1
    exact (Except.ok.inj (Run.done.inj h1)).symm
  refine ⟨⟨token, h2, h3⟩, ?_, ?_⟩
  · subst htok
    simp only [protectedRoute, isAuthorized, Request.headerGet, Option.getD_some,
      bearer_signed lib hl Hash.SHA256 _ _ _, signedToken_ne_empty lib Hash.SHA256 _ _ _,
      if_false, hx2, hok, if_true, DeletePet, huuid, Bool.not_true, Bool.false_eq_true]
  · intro p hp hslug hdel
    simp only [DB.deletePetsBySlug, List.mem_map]
    exact ⟨p, hp, by simp [hslug, hdel]⟩

/-- C14 (witness): the session token of user 2 deletes the pet of user 1. -/
theorem session_token_deletes_foreign_pet_witness :
    refPet.UserID = 1
    ∧ protectedRoute refLib (some "k") 2000 (DeletePet refLib)
        ⟨some ("Bearer " ++ signedToken refLib Hash.SHA256 (jwt_New SigningMethodHS256).1
            (sessionClaims ⟨2, "x@y.z", "", "", ""⟩ 1000) (bytesOf "k")),
          refUuid, "", some "rid"⟩ refUuidDB
      = (Run.done ⟨Data.text "L'enregistrement a bien été supprimé", ErrorData.none, 200⟩,
          ⟨[{ refPet with Slug := refUuid, Deleted := true }], [], 0⟩) :=
  ⟨rfl,
    (session_token_deletes_foreign_pet refLib refLib_lawful "k" (by decide)
      ⟨2, "x@y.z", "", "", ""⟩ 1000 2000 _ refUuid "" (some "rid") refUuidDB (by decide)
      (by decide) (by decide) (by decide)
      (generateJWT_set refLib "k" (by decide) 1000 ⟨2, "x@y.z", "", "", ""⟩) (by decide)).2.1⟩

/-! ## C10: required claims on a decoded token -/

/-- C10: every token `extractTokenFromJWT` returns carries a claim map, and on
it `readJWTClaims` returns the error `Missing required claims`, and no
identity, whenever `user_id` or `email` is absent (or null) or the empty
string, and `readReportJWTClaims` returns that error whenever `pet_id` is; an
identity either reader returns without an error holds the number under
`user_id`, respectively `pet_id`, so it is the zero-valued identity only when
that claim is the number 0: nothing is defaulted. -/
theorem required_claims_never_defaulted (lib : Lib) (env : Option String) (now : Int)
    (tok : String) (token : Token)
    (h : extractTokenFromJWT lib env now tok = Run.done (Except.ok token)) :
    ∃ m : JMap, token.Claims = Claims.MapClaims m
      ∧ ((m.at "user_id" = JVal.null ∨ m.at "user_id" = JVal.str ""
            ∨ m.at "email" = JVal.null ∨ m.at "email" = JVal.str "") →
          readJWTClaims token = Run.done (Except.error "Missing required claims"))
      ∧ ((m.at "pet_id" = JVal.null ∨ m.at "pet_id" = JVal.str "") →
          readReportJWTClaims token = Run.done (Except.error "Missing required claims"))
      ∧ (∀ ident : Identity, readJWTClaims token = Run.done (Except.ok ident) →
          m.at "user_id" = JVal.num ident.id)
      ∧ (∀ ident : Identity, readReportJWTClaims token = Run.done (Except.ok ident) →
          m.at "pet_id" = JVal.num ident.id)
      ∧ (m.at "user_id" ≠ JVal.num 0 → readJWTClaims token ≠ Run.done (Except.ok ⟨0⟩))
      ∧ (m.at "pet_id" ≠ JVal.num 0 → readReportJWTClaims token ≠ Run.done (Except.ok ⟨0⟩)) := by
  have hparse : jwt_Parse lib now tok (keyFunc env) = Run.done (Except.ok token) := by
    unfold extractTokenFromJWT at h
    split at h
    · cases h
    · rename_i parse hp
      cases h
      exact hp
    · cases h
    · cases h
  obtain ⟨hv, m, hm⟩ := jwt_Parse_ok lib now tok (keyFunc env) token hparse
  obtain ⟨h1, h2, h3, h4⟩ := readers_on_valid_token token m hv hm
  exact ⟨m, hm, h1, h2, h3, h4, fun hne hr => hne (h3 ⟨0⟩ hr), fun hne hr => hne (h4 ⟨0⟩ hr)⟩

/-- C10 (witness): the report token of pet 42, decoded at time 2000, has no
`user_id`: `readJWTClaims` returns the error. -/
theorem required_claims_never_defaulted_witness :
    ∃ token : Token,
      extractTokenFromJWT refLib (some "k") 2000 refReportToken = Run.done (Except.ok token)
      ∧ readJWTClaims token = Run.done (Except.error "Missing required claims") := by
  obtain ⟨_, hexp, huid, _, hiat, hnbf⟩ := reportClaims_lookup refPet 1000
  obtain ⟨token, jc, hx, _, hc, hjc⟩ := issued_accepted refLib refLib_lawful "k" (by decide)
    (reportClaims refPet 1000) (bytesOf "k") (1000 + 60 * 60) 2000 rfl hexp hiat hnbf (by decide)
    (Or.inr (by decide))
  obtain ⟨m, hm, h1, _⟩ := required_claims_never_defaulted refLib (some "k") 2000 _ token hx
  have hmj : m = jc := Claims.MapClaims.inj (hm.symm.trans hc)
  refine ⟨token, hx, h1 (Or.inl ?_)⟩
  rw [hmj]
  simp [JMap.at, hjc, huid]

end Petcode
